import Mathlib

/-!
Verification development for the solid_cancer_requests repository.

The main subject is the annotation-field decomposition in
`cbioportal_mutation_cleanup.py`: the `Annotation` column of each TSV is
split by the regex
`((OncoKB|reVUE|CIViC|CancerHotspot|3DHotspot):.*?)(?=(OncoKB|reVUE|CIViC|CancerHotspot|3DHotspot):|$)`
into tag-prefixed matches, pivoted by match index, checked for a consistent
tag per pivot column, and the per-tag values are further split and renamed.
Strings are modelled as `List Char`; a pandas cell is `Option (List Char)`
with `none` standing for NaN; a DataFrame is a column-name list plus rows of
cells.  Fallible pandas operations (KeyError, AttributeError on NaN,
IndexError, ValueError, and the explicit `exit()` call) are modelled with
`Except`.  Annotation strings are assumed newline-free (they are single TSV
cells), so the regex metacharacters `.` and `$` need no newline special
cases.
-/

set_option maxRecDepth 8000
set_option maxHeartbeats 2000000

namespace SCR

/-- Strings are modelled as lists of characters. -/
abbrev Str := List Char

/-- A pandas cell: `none` models NaN, `some s` a string value. -/
abbrev Cell := Option Str

/-- A pandas DataFrame: named columns and rows of cells.  Every row has one
cell per column (maintained by construction). -/
structure Frame where
  cols : List Str
  rows : List (List Cell)
  deriving DecidableEq, Repr

/-- Fatal conditions of the cleanup script: `malformed` is the explicit
`exit()` on an inconsistent tag column (line 56); the others model Python
exceptions (AttributeError on NaN, KeyError on a missing column, IndexError
on a missing split part, ValueError from pandas shape or overlap errors). -/
inductive Err where
  | malformed
  | attrErr
  | keyErr (c : Str)
  | idxErr
  | valErr
  deriving DecidableEq, Repr

/-- Outcome of processing one TSV: an empty input is skipped with a warning
and no output file (lines 26-28); otherwise a cleaned frame is written. -/
inductive FileResult where
  | skippedEmpty
  | wrote (f : Frame)
  deriving DecidableEq, Repr

/-- The closed tag vocabulary of the Annotation regex (line 38), in
alternation order. -/
def tags : List Str :=
  [("OncoKB").data, ("reVUE").data, ("CIViC").data,
   ("CancerHotspot").data, ("3DHotspot").data]

/-- A tag anchor as it appears in the raw string: the tag followed by a
colon. -/
def anchorOf (t : Str) : Str := t ++ [':']

/-- Does a recognized tag anchor start at the head of `l`?  This is the
regex lookahead `(?=(OncoKB|reVUE|CIViC|CancerHotspot|3DHotspot):)`. -/
def anchorHere (l : Str) : Bool := tags.any (fun t => List.isPrefixOf (anchorOf t) l)

/-- Scanner for `re.finditer` with the Annotation regex: a match starts at
every position where a tag anchor begins, and runs (lazily, via `.*?` plus
the lookahead) up to the next anchor or the end of the string; text before
the first anchor is skipped.  `buf` holds the reversed characters of the
match currently being built. -/
def extractAux : Str → Option Str → List Str
  | [], none => []
  | [], some buf => [buf.reverse]
  | c :: rest, none =>
    if anchorHere (c :: rest) then extractAux rest (some [c]) else extractAux rest none
  | c :: rest, some buf =>
    if anchorHere (c :: rest) then buf.reverse :: extractAux rest (some [c])
    else extractAux rest (some (c :: buf))

/-- All matches of the Annotation regex in one cell (line 37-39). -/
def extractAll (s : Str) : List Str := extractAux s none

/-- Python `x.rstrip(";")` (line 45). -/
def rstripSemi (s : Str) : Str := (s.reverse.dropWhile (fun c => c == ';')).reverse

/-- Python `x.split(sep, 1)`: the part before the first separator, and the
part after it when the separator occurs. -/
def splitOnce (sep : Char) : Str → Str × Option Str
  | [] => ([], none)
  | c :: rest =>
    if c == sep then ([], some rest)
    else
      let p := splitOnce sep rest
      (c :: p.1, p.2)

/-- Python `x.split(sep)` with no maxsplit: always returns at least one
part; `"".split(sep) == [""]`. -/
def pySplit (sep : Char) : Str → List Str
  | [] => [[]]
  | c :: rest =>
    if c == sep then [] :: pySplit sep rest
    else
      match pySplit sep rest with
      | [] => [[c]]
      | h :: t => (c :: h) :: t

/-- Whitespace characters stripped by Python `str.strip()`. -/
def pySpaces : Str := [' ', '\t', '\n', '\r', '\x0b', '\x0c']

/-- Is `c` Python whitespace? -/
def isSpace (c : Char) : Bool := pySpaces.contains c

/-- Python `x.strip()` (line 150). -/
def pyStrip (s : Str) : Str := ((s.dropWhile isSpace).reverse.dropWhile isSpace).reverse

/-- Does `pat` occur as a contiguous substring of the second argument? -/
def hasSubstr (pat : Str) : Str → Bool
  | [] => List.isPrefixOf pat []
  | c :: rest => List.isPrefixOf pat (c :: rest) || hasSubstr pat rest

/-- Fuelled worker for Python `str.replace`: scans left to right and
replaces every non-overlapping occurrence of `pat`.  The fuel only needs to
cover the length of the string, since each step consumes at least one
character. -/
def pyReplaceF (pat rep : Str) : Nat → Str → Str
  | 0, s => s
  | _ + 1, [] => []
  | n + 1, c :: rest =>
    if List.isPrefixOf pat (c :: rest) then
      rep ++ pyReplaceF pat rep n ((c :: rest).drop pat.length)
    else c :: pyReplaceF pat rep n rest

/-- Python `s.replace(pat, rep)` (pandas `Series.str.replace` with a literal
pattern, lines 73-76): replaces every occurrence, left to right. -/
def pyReplace (pat rep s : Str) : Str := pyReplaceF pat rep s.length s

/-- Decimal rendering of a natural number, for the `add_prefix` column
names `OncoKB_0`, `CIViC_3`, ... -/
def natStr (n : Nat) : Str := Nat.toDigits 10 n

/-- The lambda of line 145: `x.split(":", 1)[1] if ":" in x and x else x`.
A nonempty string containing a colon loses everything through its first
colon; anything else is returned unchanged. -/
def condSplit (x : Str) : Str :=
  if hasSubstr [':'] x then ((splitOnce ':' x).2).getD [] else x

/-- Deduplication modelling Python `list(set(...))` (line 50) for the tag
consistency check: only the questions `is it a singleton` and `what is the
unique element` are used downstream, which are order-independent. -/
def dedupR : List Str → List Str
  | [] => []
  | x :: xs => if (dedupR xs).contains x then dedupR xs else x :: dedupR xs

/-! Frame primitives. -/

/-- Number of columns of `f` labelled `name`. -/
def colCount (f : Frame) (name : Str) : Nat := (f.cols.filter (fun c => c == name)).length

/-- Index of the first occurrence of `name` in a column list. -/
def idxOf : List Str → Str → Option Nat
  | [], _ => none
  | c :: rest, name => if c == name then some 0 else (idxOf rest name).map (· + 1)

/-- Index of the first column labelled `name`. -/
def colIdx (f : Frame) (name : Str) : Option Nat := idxOf f.cols name

/-- Membership test `name in df.columns`. -/
def hasCol (f : Frame) (name : Str) : Bool := f.cols.contains name

/-- Column selection `df[name]` as a Series: KeyError when absent; when the
label is duplicated pandas returns a sub-DataFrame and every later Series
operation fails, modelled as AttributeError. -/
def getCol (f : Frame) (name : Str) : Except Err (List Cell) :=
  match colCount f name, colIdx f name with
  | 1, some i => .ok (f.rows.map (fun r => (r[i]?).join))
  | 0, _ => .error (.keyErr name)
  | _, _ => .error .attrErr

/-- Column assignment `df[name] = vals`: overwrites an existing column in
place, otherwise appends a new one. -/
def setCol (f : Frame) (name : Str) (vals : List Cell) : Frame :=
  match colIdx f name with
  | some i => { cols := f.cols, rows := (f.rows.zip vals).map (fun p => p.1.set i p.2) }
  | none => { cols := f.cols ++ [name], rows := (f.rows.zip vals).map (fun p => p.1 ++ [p.2]) }

/-- Column removal `df.drop([name], axis=1)`. -/
def dropCol (f : Frame) (name : Str) : Frame :=
  { cols := f.cols.filter (fun c => !(c == name)),
    rows := f.rows.map (fun r => ((f.cols.zip r).filter (fun p => !(p.1 == name))).map (fun p => p.2)) }

/-- `df.join(other)` for two frames over the same row index: pandas raises
ValueError when column labels overlap; rows are matched by index label,
which coincides with position here. -/
def joinFrames (f g : Frame) : Except Err Frame :=
  if g.cols.any (fun c => f.cols.contains c) then .error .valErr
  else .ok { cols := f.cols ++ g.cols, rows := (f.rows.zip g.rows).map (fun p => p.1 ++ p.2) }

/-- Pair each element with its position, starting at `n`. -/
def withIdx : List (List Cell) → Nat → List (Nat × List Cell)
  | [], _ => []
  | x :: xs, n => (n, x) :: withIdx xs (n + 1)

/-- `Series.str.split(sep)` element-wise: NaN passes through. -/
def splitCells (cells : List Cell) (sep : Char) : List (Option (List Str)) :=
  cells.map (Option.map (pySplit sep))

/-- Width of the `expand=True` result: the maximum part count over the
non-NaN rows. -/
def maxWidth (ps : List (Option (List Str))) : Nat :=
  ps.foldr (fun p acc => match p with | some l => max l.length acc | none => acc) 0

/-- One row of the `expand=True` DataFrame: missing parts and NaN rows
become NaN. -/
def expandRow (p : Option (List Str)) (w : Nat) : List Cell :=
  (List.range w).map (fun j => match p with | some l => l[j]? | none => none)

/-! The Annotation pivot and per-column tag check (lines 35-61). -/

/-- Tag label of one regex match: the text before its first colon
(`x.split(":", 1)[0]`, line 51). -/
def tagOf (m : Str) : Str := (splitOnce ':' m).1

/-- Matches contributed by one cell: `extractall` skips NaN rows. -/
def cellMatches : Cell → List Str
  | none => []
  | some s => extractAll s

/-- The pivot of the extractall result (lines 35-47): one row per original
record that produced at least one match (records without matches are
dropped by `extractall`), each row listing its matches in order, every
match already right-stripped of semicolons (line 44-46).  Row order follows
the original order, which is what `pivot` produces for ascending labels. -/
def pivotGrid (cells : List Cell) : List (List Str) :=
  ((cells.map cellMatches).filter (fun r => !r.isEmpty)).map (fun r => r.map rstripSemi)

/-- Processing of one pivot column `j` (lines 49-61): a NaN in the column
crashes the name comprehension with AttributeError; then the set of tag
labels must be a singleton, else the script prints and calls `exit()`
(modelled as `malformed`); on success the column is renamed to the tag and
each value keeps only the text after its first colon. -/
def stepCol (grid : List (List Str)) (j : Nat) : Except Err (Str × List Str) :=
  let col := grid.map (fun r => r[j]?)
  if col.any (fun c => c.isNone) then .error .attrErr
  else
    let vals := col.map (fun c => c.getD [])
    match dedupR (vals.map tagOf) with
    | [n] =>
      let parts := vals.map (fun v => (splitOnce ':' v).2)
      if parts.any (fun p => p.isNone) then .error .idxErr
      else .ok (n, parts.map (fun p => p.getD []))
    | _ => .error .malformed

/-- Left-to-right processing of the pivot columns; the first failing column
aborts the whole batch. -/
def stepCols (grid : List (List Str)) : List Nat → Except Err (List (Str × List Str))
  | [] => .ok []
  | j :: js => do
    let c ← stepCol grid j
    let rest ← stepCols grid js
    .ok (c :: rest)

/-- The whole Annotation decomposition of lines 35-61: extract, pivot,
strip semicolons, and run the per-column tag check, yielding the tag-named
columns and their per-matched-row values. -/
def annotStep (cells : List Cell) : Except Err (List Str × List (List Str)) := do
  let grid := pivotGrid cells
  let w := grid.foldr (fun r acc => max r.length acc) 0
  let cols ← stepCols grid (List.range w)
  .ok (cols.map (fun p => p.1), cols.map (fun p => p.2))

/-- The join of line 63.  After `reset_index` (line 42) the pivot frame has
a positional RangeIndex, so `df.join` matches the i-th matched record to
the i-th record of the original frame (NaN beyond); column overlap raises
ValueError. -/
def annotJoinF (f : Frame) (names : List Str) (colsVals : List (List Str)) : Except Err Frame :=
  if names.any (fun c => f.cols.contains c) then .error .valErr
  else .ok { cols := f.cols ++ names,
             rows := (withIdx f.rows 0).map (fun p => p.2 ++ colsVals.map (fun cv => cv[p.1]?)) }

/-- The OncoKB sub-field split and cleanup (lines 65-76): split the OncoKB
column on commas into `OncoKB_0`, `OncoKB_1`, ..., drop the original, then
`df["OncoKB_level"]` and `df["OncoKB_resistance"]` get `str.replace`
cleanups.  Those two labels only exist after the rename of line 148, so the
lookup raises KeyError here whenever the OncoKB column was present. -/
def oncoKbStep (f : Frame) : Except Err Frame :=
  if hasCol f (("OncoKB").data) then do
    let cells ← getCol f (("OncoKB").data)
    let ps := splitCells cells ','
    let w := maxWidth ps
    let names := (List.range w).map (fun j => ("OncoKB_").data ++ natStr j)
    let g ← joinFrames f { cols := names, rows := ps.map (fun p => expandRow p w) }
    let g := dropCol g (("OncoKB").data)
    let lv ← getCol g (("OncoKB_level").data)
    let g := setCol g (("OncoKB_level").data)
      (lv.map (Option.map (fun s => pyReplace (("level ").data) [] s)))
    let rs ← getCol g (("OncoKB_resistance").data)
    let g := setCol g (("OncoKB_resistance").data)
      (rs.map (Option.map (fun s => pyReplace (("resistance ").data) [] s)))
    .ok g
  else .ok f

/-- The CIViC sub-field split (lines 78-83): split on commas into
`CIViC_0`, `CIViC_1`, ..., and drop the original column. -/
def civicStep (f : Frame) : Except Err Frame :=
  if hasCol f (("CIViC").data) then do
    let cells ← getCol f (("CIViC").data)
    let ps := splitCells cells ','
    let w := maxWidth ps
    let names := (List.range w).map (fun j => ("CIViC_").data ++ natStr j)
    let g ← joinFrames f { cols := names, rows := ps.map (fun p => expandRow p w) }
    .ok (dropCol g (("CIViC").data))
  else .ok f

/-- The whole `if "Annotation" in df.columns` block (lines 30-85). -/
def annotBlock (f : Frame) : Except Err Frame :=
  if hasCol f (("Annotation").data) then do
    let cells ← getCol f (("Annotation").data)
    let r ← annotStep cells
    let g ← annotJoinF f r.1 r.2
    let g ← oncoKbStep g
    let g ← civicStep g
    .ok (dropCol g (("Annotation").data))
  else .ok f

/-! The `Functional Impact` block (lines 87-113). -/

/-- The four fixed impact tags of line 101-106. -/
def impactCols : List Str :=
  [("MutationAssessor").data, ("SIFT").data, ("Polyphen-2").data, ("AlphaMissense").data]

/-- Column label of the functional-impact source column. -/
def fiName : Str := ("Functional Impact").data

/-- Assign `df[names] = expanded` column by column (line 92-94): an
existing label is overwritten, a new one appended. -/
def assignCols (f : Frame) : List (Str × List Cell) → Frame
  | [] => f
  | p :: rest => assignCols (setCol f p.1 p.2) rest

/-- Transpose the expanded rows into per-column value lists. -/
def columnsOf (rows : List (List Cell)) (w : Nat) : List (List Cell) :=
  (List.range w).map (fun j => rows.map (fun r => (r[j]?).join))

/-- Strip the `NAME:` title from each cell of the freshly assigned impact
columns (lines 96-99): NaN crashes with AttributeError, a value without a
colon with IndexError. -/
def stripTitle (f : Frame) : List Str → Except Err Frame
  | [] => .ok f
  | n :: rest => do
    let cells ← getCol f n
    let vals ← cells.mapM (fun c =>
      match c with
      | none => Except.error Err.attrErr
      | some x =>
        match (splitOnce ':' x).2 with
        | none => Except.error Err.idxErr
        | some v => Except.ok (some v))
    stripTitle (setCol f n vals) rest

/-- Comma-split each of the four fixed impact columns and join the expanded
columns in (lines 108-111); a missing column raises KeyError. -/
def impactSplit (f : Frame) : List Str → Except Err Frame
  | [] => .ok f
  | c :: rest => do
    let cells ← getCol f c
    let ps := splitCells cells ','
    let w := maxWidth ps
    let names := (List.range w).map (fun j => c ++ ['_'] ++ natStr j)
    let g ← joinFrames f { cols := names, rows := ps.map (fun p => expandRow p w) }
    impactSplit g rest

/-- The whole `if "Functional Impact" in df.columns` block (lines 87-113):
column names come from the semicolon-split of the first record (line
89-91), the assignment of line 92-94 needs the expanded width to equal
that name count (else pandas raises ValueError), titles are stripped, the
four fixed impact columns are comma-split, and the originals dropped. -/
def fiBlock (f : Frame) : Except Err Frame :=
  if hasCol f fiName then do
    let cells ← getCol f fiName
    let first ← match cells[0]? with
      | some (some v) => Except.ok v
      | some none => Except.error Err.attrErr
      | none => Except.error Err.idxErr
    let names := (pySplit ';' first).map (fun x => (splitOnce ':' x).1)
    let ps := splitCells cells ';'
    let w := maxWidth ps
    if !(w == names.length) then .error .valErr
    else do
      let expanded := ps.map (fun p => expandRow p w)
      let g := assignCols f (names.zip (columnsOf expanded w))
      let g ← stripTitle g names
      let g ← impactSplit g impactCols
      .ok (impactCols.foldl dropCol (dropCol g fiName))
  else .ok f

/-! Final renaming, conditional label strip, whitespace trim (lines 115-156). -/

/-- The plain rename table of lines 116-120. -/
def rename_cols : List (Str × Str) :=
  [(("OncoKB_0").data, ("OncoKB").data),
   (("OncoKB_1").data, ("OncoKB_level").data),
   (("OncoKB_2").data, ("OncoKB_resistance").data)]

/-- The rename-and-split table of lines 123-138. -/
def split_rename_cols : List (Str × Str) :=
  [(("CIViC_0").data, ("CIViC_diagnosticCount").data),
   (("CIViC_1").data, ("CIViC_predictiveCount").data),
   (("CIViC_2").data, ("CIViC_prognosticCount").data),
   (("CIViC_3").data, ("CIViC_predisposingCount").data),
   (("CIViC_4").data, ("CIViC_oncogenicCount").data),
   (("CIViC_5").data, ("CIViC_functionalCount").data),
   (("MutationAssessor_0").data, ("MutationAssessor_impact").data),
   (("MutationAssessor_1").data, ("MutationAssessor_score").data),
   (("SIFT_0").data, ("SIFT_impact").data),
   (("SIFT_1").data, ("SIFT_score").data),
   (("Polyphen-2_0").data, ("Polyphen-2_impact").data),
   (("Polyphen-2_1").data, ("Polyphen-2_score").data),
   (("AlphaMissense_0").data, ("AlphaMissense_pathogenicity").data),
   (("AlphaMissense_1").data, ("AlphaMissense_score").data)]

/-- One pass of the loop of lines 140-146: if the column exists, NaN is
filled with the empty string and the conditional title split is applied. -/
def srOne (f : Frame) (p : Str × Str) : Except Err Frame :=
  if hasCol f p.1 then do
    let cells ← getCol f p.1
    .ok (setCol f p.1 (cells.map (fun c => some (condSplit (c.getD [])))))
  else .ok f

/-- The loop of lines 140-146 over the whole rename-and-split table. -/
def splitRenameAll (f : Frame) : Except Err Frame := split_rename_cols.foldlM srOne f

/-- The rename of line 148 with the merged dictionary. -/
def renameAll (f : Frame) : Frame :=
  { cols := f.cols.map (fun c =>
      match (rename_cols ++ split_rename_cols).lookup c with
      | some n => n
      | none => c),
    rows := f.rows }

/-- The whitespace trim of line 150 (`applymap` leaves NaN alone). -/
def stripAll (f : Frame) : Frame :=
  { cols := f.cols, rows := f.rows.map (fun r => r.map (Option.map pyStrip)) }

/-- Processing of one TSV (the body of the `for` loop, lines 21-156): an
empty frame is skipped with a warning and no output file; otherwise the
Annotation and Functional Impact decompositions run, then the final
split/rename/trim, and the cleaned frame is written. -/
def processTsv (f : Frame) : Except Err FileResult :=
  if f.rows.isEmpty then .ok .skippedEmpty
  else do
    let g ← annotBlock f
    let g ← fiBlock g
    let g ← splitRenameAll g
    .ok (.wrote (stripAll (renameAll g)))

/-- Did processing produce an output file? -/
def writesOutput (r : Except Err FileResult) : Bool :=
  match r with
  | .ok (.wrote _) => true
  | _ => false

/-! Model of `concurrent_read_tsv` in EBH-2633/msi_tmb_tso500.py (lines
236-253).  Each worker reads one file independently; its outcome is either
a frame or an exception message.  The loop over `as_completed` appends
successful frames to a list and logs failures; the listing order is
completion order, which is immaterial for the properties proved here and is
modelled as the given order. -/

/-- The `as_completed` loop: collect successful frames, log exception
messages; a failure never aborts the loop nor removes other results. -/
def collectResults : List (Except Str Frame) → List Frame × List Str
  | [] => ([], [])
  | .ok df :: rest =>
    let r := collectResults rest
    (df :: r.1, r.2)
  | .error e :: rest =>
    let r := collectResults rest
    (r.1, e :: r.2)

/-- Union of column lists in order of first appearance, as `pd.concat`
aligns columns. -/
def concatCols : List Frame → List Str
  | [] => []
  | f :: rest => f.cols ++ ((concatCols rest).filter (fun c => !(f.cols.contains c)))

/-- Rows of `pd.concat`: each row is re-expressed over the union column
list, absent columns becoming NaN. -/
def alignRow (f : Frame) (r : List Cell) (cols : List Str) : List Cell :=
  cols.map (fun c =>
    match f.cols.findIdx? (fun d => d == c) with
    | some i => (r[i]?).join
    | none => none)

/-- `pd.concat(list_of_dfs)` (line 251): raises ValueError on an empty
list, otherwise stacks all rows over the union of columns. -/
def pdConcat (dfs : List Frame) : Except Str Frame :=
  match dfs with
  | [] => .error (("No objects to concatenate").data)
  | _ =>
    let cols := concatCols dfs
    .ok { cols := cols, rows := (dfs.map (fun f => f.rows.map (fun r => alignRow f r cols))).foldr (fun a b => a ++ b) [] }

/-- `concurrent_read_tsv` (lines 216-253): the concatenated frame of all
successful worker results, together with the logged error messages. -/
def concurrent_read_tsv (results : List (Except Str Frame)) : Except Str Frame × List Str :=
  let c := collectResults results
  (pdConcat c.1, c.2)

/-! Model of EBH-4136/cancer_wgs_supplementary_html_table_extract.py. -/

/-- Errors of the HTML table-extraction script. -/
inductive HtmlErr where
  | tooFew (n : Nat)
  | keyErr (c : Str)
  | valErr
  deriving DecidableEq, Repr

/-- `pd.merge(left, right, how="inner", suffixes=[None, ".1"], left_index
=True, right_index=True)` over RangeIndex frames: rows pair up by position
(the inner join keeps the common labels), colliding right-hand column names
get the `.1` suffix. -/
def mergeByIndex (l r : Frame) : Frame :=
  { cols := l.cols ++ r.cols.map (fun c => if l.cols.contains c then c ++ (".1").data else c),
    rows := (l.rows.zip r.rows).map (fun p => p.1 ++ p.2) }

/-- The five identifier columns inserted into the quality table (lines
78-87). -/
def columns_to_add : List (Nat × Str) :=
  [(0, ("Referral ID").data), (1, ("Patient ID").data),
   (2, ("Histopathology or SIHMDS LAB ID").data), (3, ("Sample ID").data),
   (4, ("Sample ID.1").data)]

/-- Insert an element at position `p` (append when `p` is past the end),
as `DataFrame.insert` places a new column. -/
def insertAt (p : Nat) (a : α) (l : List α) : List α :=
  match p, l with
  | 0, l => a :: l
  | _ + 1, [] => [a]
  | n + 1, x :: xs => x :: insertAt n a xs

/-- One insertion of line 86-87: look the identifier up in the first row of
the merged sample table (KeyError when the column is missing, IndexError
folded into ValueError when there is no row), and insert it into the
quality table, whose row count must be 2 to match the `[value] * 2` list. -/
def insertIdCol (sample : Frame) (qual : Frame) (p : Nat × Str) : Except HtmlErr Frame :=
  match sample.cols.findIdx? (fun c => c == p.2) with
  | none => .error (.keyErr p.2)
  | some i =>
    match sample.rows[0]? with
    | none => .error .valErr
    | some r =>
      if qual.rows.length == 2 then
        .ok { cols := insertAt p.1 p.2 qual.cols,
              rows := qual.rows.map (fun row => insertAt p.1 ((r[i]?).join) row) }
      else .error .valErr

/-- `select_tables` (lines 35-89): fewer than 5 extracted tables raises
ValueError before anything is merged or modified; otherwise the first four
tables are merged on their index and the five identifier columns are
inserted into the fifth. -/
def select_tables (tables : List Frame) : Except HtmlErr (Frame × Frame) :=
  match tables with
  | t0 :: t1 :: t2 :: t3 :: t4 :: _ => do
    let sample := mergeByIndex (mergeByIndex (mergeByIndex t0 t1) t2) t3
    let qual ← columns_to_add.foldlM (insertIdCol sample) t4
    .ok (sample, qual)
  | _ => .error (.tooFew tables.length)

/-- The per-file loop of `main` (lines 128-139): each file's tables go
through `select_tables` inside a try/except; a failure records the file
name in the error list and processing continues with the remaining files. -/
def processFiles : List (Str × List Frame) → List Frame × List Frame × List Str
  | [] => ([], [], [])
  | (name, tables) :: rest =>
    let r := processFiles rest
    match select_tables tables with
    | .ok (s, q) => (s :: r.1, q :: r.2.1, r.2.2)
    | .error _ => (r.1, r.2.1, name :: r.2.2)

deriving instance DecidableEq for Except

/-! Specification-side vocabulary for reasoning about the extractor: a
well-formed annotation value is a concatenation of tag-prefixed segments.
These definitions exist only to state theorems about `extractAll`; the
extractor itself never sees them. -/

/-- Does the value contain a full tag anchor at some position?  A clean
segment value must not, or the regex would start a new match inside it. -/
def valueOk (v : Str) : Bool := (List.range v.length).all (fun i => !(anchorHere (v.drop i)))

/-- Rendering of a list of (tag, value) segments into a raw annotation
string, segments back to back as the regex expects them. -/
def render : List (Str × Str) → Str
  | [] => []
  | p :: rest => anchorOf p.1 ++ p.2 ++ render rest

/-- A segment is good when its tag is in the vocabulary and its value
contains no embedded anchor. -/
def goodSeg (p : Str × Str) : Bool := tags.contains p.1 && valueOk p.2

/-- All segments of a list are good. -/
def goodSegs (segs : List (Str × Str)) : Bool := segs.all goodSeg

/-- The raw text of one segment, as the regex matches it. -/
def segStr (p : Str × Str) : Str := anchorOf p.1 ++ p.2

/-- The Field Extractor's tag-to-value mapping, as the spec describes it:
each match, right-stripped of semicolons, split at its first colon into
the tag and the raw value (lines 37-61 compute exactly these two parts per
pivot column). -/
def extractPairs (s : Str) : List (Str × Str) :=
  (extractAll s).map (fun m =>
    ((splitOnce ':' (rstripSemi m)).1, ((splitOnce ':' (rstripSemi m)).2).getD []))

/-- One segment's text as it sits in the pivot grid: the raw match with
trailing semicolons stripped. -/
def cleanSeg (p : Str × Str) : Str := rstripSemi (segStr p)

/-- Comma-join of sub-values, the inverse of the Sub-field Splitter's
comma split. -/
def joinComma : List Str → Str
  | [] => []
  | [x] => x
  | x :: xs => x ++ ',' :: joinComma xs

/-- Boolean facts about the tag vocabulary: every tag is nonempty and free
of colons, semicolons and commas. -/
def tagBasics : Bool :=
  tags.all (fun t => !t.isEmpty && !t.contains ':' && !t.contains ';' && !t.contains ',')

/-- Boolean fact about the tag vocabulary: a proper nonempty suffix of an
anchor is never prefix-comparable with an anchor, so an anchor can never
begin strictly inside another anchor, whatever follows. -/
def tagFact : Bool :=
  tags.all (fun t => tags.all (fun u =>
    (List.range (anchorOf t).length).all (fun k =>
      k == 0 ||
      (!(List.isPrefixOf (anchorOf u) ((anchorOf t).drop k)) &&
       !(List.isPrefixOf ((anchorOf t).drop k) (anchorOf u))))))

/-- A batch frame holding one Annotation column whose records are renders
of tag/value segment lists. -/
def annotBatch (segsList : List (List (Str × Str))) : Frame :=
  { cols := [("Annotation").data],
    rows := segsList.map (fun segs => [some (render segs)]) }

/-! Concrete frames used in claim instances. -/

/-- The single-record frame of the specification's worked OncoKB example. -/
def oncoExample : Frame :=
  { cols := [("Annotation").data],
    rows := [[some (("OncoKB:Oncogenic,level 3,resistance None").data)]] }

/-- A two-record batch where record 1 carries the OncoKB tag and record 2
lacks it (while carrying another tag). -/
def mixedTagBatch : Frame :=
  { cols := [("Annotation").data],
    rows := [[some (("OncoKB:Oncogenic;reVUE:foo").data)],
             [some (("reVUE:foo").data)]] }

/-- A two-record batch where record 2 has no recognized tag at all. -/
def civicBackfillBatch : Frame :=
  { cols := [("Annotation").data],
    rows := [[some (("CIViC:diagnostic:1,predictive:2").data)], [none]] }

/-- First four case-information tables and the quality table of a
well-formed supplementary HTML file, for the `select_tables` success
path. -/
def c10GoodTables : List Frame :=
  [{ cols := [("Referral ID").data, ("Patient ID").data,
              ("Histopathology or SIHMDS LAB ID").data, ("Sample ID").data],
     rows := [[some (("r1").data), some (("p1").data), some (("h1").data), some (("s1").data)]] },
   { cols := [("Sample ID").data], rows := [[some (("s2").data)]] },
   { cols := [], rows := [[]] },
   { cols := [], rows := [[]] },
   { cols := [("Metric").data], rows := [[some (("m1").data)], [some (("m2").data)]] }]

/-! General helper lemmas. -/

/-- A list is a Boolean prefix of itself extended by anything. -/
theorem isPrefixOf_append_self (l u : Str) : List.isPrefixOf l (l ++ u) = true := by
  induction l with
  | nil => simp
  | cons c rest ih => simp [List.isPrefixOf, ih]

/-- A string without an occurrence of `pat` is untouched by the replace
scanner, for every fuel. -/
theorem pyReplaceF_no_occ (pat rep : Str) :
    ∀ (s : Str), hasSubstr pat s = false → ∀ n, pyReplaceF pat rep n s = s := by
  intro s
  induction s with
  | nil =>
    intro _ n
    cases n <;> rfl
  | cons c rest ih =>
    intro h n
    have h' : List.isPrefixOf pat (c :: rest) = false ∧ hasSubstr pat rest = false := by
      have := h
      simp only [hasSubstr, Bool.or_eq_false_iff] at this
      exact this
    cases n with
    | zero => rfl
    | succ m =>
      simp only [pyReplaceF, h'.1, Bool.false_eq_true, if_false]
      rw [ih h'.2 m]

/-- Python `str.replace` leaves a pattern-free string unchanged. -/
theorem pyReplace_no_occ (pat rep s : Str) (h : hasSubstr pat s = false) :
    pyReplace pat rep s = s :=
  pyReplaceF_no_occ pat rep s h s.length

/-- Replacing a nonempty pattern by the empty string removes a leading
occurrence exactly, when the remainder of the string is pattern-free. -/
theorem pyReplace_strip_leading (pat s : Str) (hp : pat ≠ []) (h : hasSubstr pat s = false) :
    pyReplace pat [] (pat ++ s) = s := by
  unfold pyReplace
  cases hn : (pat ++ s).length with
  | zero =>
    rw [List.length_eq_zero] at hn
    rcases List.append_eq_nil.mp hn with ⟨h1, _⟩
    exact absurd h1 hp
  | succ m =>
    cases pat with
    | nil => exact absurd rfl hp
    | cons c pr =>
      have hpre : List.isPrefixOf (c :: pr) (c :: (pr ++ s)) = true := by
        rw [← List.cons_append]
        exact isPrefixOf_append_self _ _
      simp only [List.cons_append, pyReplaceF, List.append_eq, hpre, if_true, List.nil_append,
        List.length_cons, List.drop_succ_cons, List.drop_left]
      exact pyReplaceF_no_occ _ _ s h m

/-- The results collected from the worker pool split over list append. -/
theorem collectResults_append (l₁ l₂ : List (Except Str Frame)) :
    collectResults (l₁ ++ l₂) =
      ((collectResults l₁).1 ++ (collectResults l₂).1,
       (collectResults l₁).2 ++ (collectResults l₂).2) := by
  induction l₁ with
  | nil => simp [collectResults]
  | cons h t ih => cases h <;> simp [collectResults, ih]

/-- Fewer than five extracted tables make `select_tables` raise before
anything is merged or modified. -/
theorem select_tables_too_few (tables : List Frame) (h : tables.length < 5) :
    select_tables tables = .error (.tooFew tables.length) := by
  match tables with
  | [] => rfl
  | [_] => rfl
  | [_, _] => rfl
  | [_, _, _] => rfl
  | [_, _, _, _] => rfl
  | _ :: _ :: _ :: _ :: _ :: _ =>
    simp only [List.length_cons] at h
    omega

/-! Correctness of the regex scanner on well-formed segment renders. -/

/-- Two prefixes of a common list are comparable. -/
theorem prefixTotal {l₁ l₂ l₃ : Str} (h1 : l₁ <+: l₃) (h2 : l₂ <+: l₃) :
    l₁ <+: l₂ ∨ l₂ <+: l₁ := by
  rcases le_total l₁.length l₂.length with h | h
  · exact Or.inl (List.prefix_of_prefix_length_le h1 h2 h)
  · exact Or.inr (List.prefix_of_prefix_length_le h2 h1 h)

/-- Cancel a common front of a prefix relation. -/
theorem prefixCancel {s a b : Str} (h : s ++ a <+: s ++ b) : a <+: b := by
  induction s with
  | nil => exact h
  | cons c cs ih => exact ih ((List.cons_prefix_cons.mp h).2)

/-- Boolean tag-list membership in Prop form. -/
theorem mem_of_containsTag {t : Str} (h : tags.contains t = true) : t ∈ tags := by
  simpa using h

/-- Unfolding of `anchorHere` into an existence statement. -/
theorem anchorHere_eq_true {l : Str} : anchorHere l = true ↔ ∃ t ∈ tags, anchorOf t <+: l := by
  simp [anchorHere, List.any_eq_true, List.isPrefixOf_iff_prefix]

/-- Unfolding of `anchorHere = false` into a universal statement. -/
theorem anchorHere_eq_false {l : Str} :
    anchorHere l = false ↔ ∀ t ∈ tags, ¬ (anchorOf t <+: l) := by
  simp [anchorHere, List.any_eq_false, List.isPrefixOf_iff_prefix]

/-- Proposition form of `tagFact`: a nonempty proper suffix of an anchor is
never prefix-comparable with an anchor. -/
theorem tagFact_prop {t u : Str} (ht : t ∈ tags) (hu : u ∈ tags) {k : Nat}
    (hk1 : 1 ≤ k) (hk2 : k < (anchorOf t).length) :
    ¬ (anchorOf u <+: (anchorOf t).drop k) ∧ ¬ ((anchorOf t).drop k <+: anchorOf u) := by
  have hf : tagFact = true := by decide
  simp only [tagFact, List.all_eq_true] at hf
  have h := hf t ht u hu k (List.mem_range.mpr hk2)
  have hk0 : (k == 0) = false := by
    have : k ≠ 0 := Nat.one_le_iff_ne_zero.mp hk1
    simpa using this
  rw [hk0, Bool.false_or, Bool.and_eq_true, Bool.not_eq_true', Bool.not_eq_true'] at h
  constructor
  · intro hc
    exact absurd (List.isPrefixOf_iff_prefix.mpr hc) (by simp [h.1])
  · intro hc
    exact absurd (List.isPrefixOf_iff_prefix.mpr hc) (by simp [h.2])

/-- Every tag is nonempty and contains no colon (from `tagBasics`). -/
theorem tag_shape {t : Str} (ht : t ∈ tags) : t ≠ [] ∧ ':' ∉ t := by
  have hf : tagBasics = true := by decide
  simp only [tagBasics, List.all_eq_true] at hf
  have h := hf t ht
  simp only [Bool.and_eq_true, Bool.not_eq_true'] at h
  refine ⟨fun hnil => ?_, fun hmem => ?_⟩
  · rw [hnil] at h; simp [List.isEmpty] at h
  · have := h.1.1.2
    rw [List.contains_eq_any_beq] at this
    simp only [List.any_eq_false] at this
    exact absurd (by simp) (this ':' hmem)

/-- Proposition form of `valueOk`. -/
theorem valueOk_prop {v : Str} (hv : valueOk v = true) {i : Nat} (hi : i < v.length) :
    anchorHere (v.drop i) = false := by
  simp only [valueOk, List.all_eq_true, List.mem_range, Bool.not_eq_true'] at hv
  exact hv i hi

/-- No anchor can start strictly inside a clean value, even when the value
is followed by text that itself starts with an anchor (or by nothing): the
straddling piece would have to be a proper suffix of one anchor and
prefix-comparable with another, which `tagFact` rules out. -/
theorem anchorHere_value {v z : Str} (hv : valueOk v = true)
    (hz : z = [] ∨ anchorHere z = true) {i : Nat} (hi : i < v.length) :
    anchorHere (v.drop i ++ z) = false := by
  rw [anchorHere_eq_false]
  intro u hu hc
  have hs_pre : v.drop i <+: v.drop i ++ z := List.prefix_append _ _
  have hvi : ∀ w ∈ tags, ¬ (anchorOf w <+: v.drop i) :=
    anchorHere_eq_false.mp (valueOk_prop hv hi)
  rcases prefixTotal hc hs_pre with hcase | hcase
  · exact hvi u hu hcase
  · obtain ⟨tail, htail⟩ := hcase
    have hdropne : v.drop i ≠ [] := by
      intro hnil
      have hlen := List.length_drop i v
      rw [hnil] at hlen
      simp at hlen
      omega
    by_cases htn : tail = []
    · subst htn
      rw [List.append_nil] at htail
      exact hvi u hu (htail ▸ List.prefix_refl _)
    · have htail_pre : tail <+: z := by
        have hx : v.drop i ++ tail <+: v.drop i ++ z := htail ▸ hc
        exact prefixCancel hx
      rcases hz with hz0 | hz1
      · subst hz0
        exact htn (List.prefix_nil.mp htail_pre)
      · obtain ⟨t₂, ht₂, hanch₂⟩ := anchorHere_eq_true.mp hz1
        have hkdrop : (anchorOf u).drop (v.drop i).length = tail := by
          rw [← htail]; exact List.drop_left _ _
        have hk1 : 1 ≤ (v.drop i).length := by
          cases hvd : v.drop i with
          | nil => exact absurd hvd hdropne
          | cons a l => simp [hvd]
        have hk2 : (v.drop i).length < (anchorOf u).length := by
          have hlen : (v.drop i).length + tail.length = (anchorOf u).length := by
            rw [← htail, List.length_append]
          have htl : tail.length ≠ 0 := fun h0 => htn (List.length_eq_zero.mp h0)
          omega
        have hfact := tagFact_prop hu ht₂ hk1 hk2
        rcases prefixTotal htail_pre hanch₂ with hc2 | hc2
        · exact hfact.2 (hkdrop ▸ hc2)
        · exact hfact.1 (hkdrop ▸ hc2)

/-- No anchor can start strictly inside another anchor, whatever text
follows. -/
theorem anchorHere_inside_anchor {t : Str} (ht : t ∈ tags) {k : Nat}
    (hk1 : 1 ≤ k) (hk2 : k < (anchorOf t).length) (u : Str) :
    anchorHere ((anchorOf t).drop k ++ u) = false := by
  rw [anchorHere_eq_false]
  intro w hw hc
  have hfact := tagFact_prop ht hw hk1 hk2
  have hd_pre : (anchorOf t).drop k <+: (anchorOf t).drop k ++ u := List.prefix_append _ _
  rcases prefixTotal hc hd_pre with hc2 | hc2
  · exact hfact.1 hc2
  · exact hfact.2 hc2

/-- An anchor of the vocabulary is detected at its own position. -/
theorem anchorHere_anchor {t : Str} (ht : t ∈ tags) (u : Str) :
    anchorHere (anchorOf t ++ u) = true :=
  anchorHere_eq_true.mpr ⟨t, ht, List.prefix_append _ _⟩

/-- The scanner accumulates an anchor-free stretch into the current match
buffer. -/
theorem extractAux_walk (z : Str) : ∀ (u : Str) (buf : Str),
    (∀ i, i < u.length → anchorHere (u.drop i ++ z) = false) →
    extractAux (u ++ z) (some buf) = extractAux z (some (u.reverse ++ buf)) := by
  intro u
  induction u with
  | nil => intro buf _; simp
  | cons c cs ih =>
    intro buf h
    have h0 : anchorHere (c :: (cs ++ z)) = false := by
      have := h 0 (Nat.succ_pos _)
      simpa using this
    simp only [List.cons_append, extractAux, List.append_eq, h0, Bool.false_eq_true, if_false]
    rw [ih (c :: buf) (fun i hi => by
      have := h (i + 1) (by simp only [List.length_cons]; omega)
      simpa using this)]
    simp [List.reverse_cons, List.append_assoc]

/-- The scanner consumes one well-formed segment whole: at its anchor it
closes any pending match and accumulates exactly the segment's text, and
the continuation starts at the following anchor (or the end). -/
theorem extractAux_seg {t : Str} (ht : t ∈ tags) {v z : Str} (hv : valueOk v = true)
    (hz : z = [] ∨ anchorHere z = true) :
    extractAux ((anchorOf t ++ v) ++ z) none =
      extractAux z (some ((anchorOf t ++ v).reverse)) ∧
    ∀ buf, extractAux ((anchorOf t ++ v) ++ z) (some buf) =
      buf.reverse :: extractAux z (some ((anchorOf t ++ v).reverse)) := by
  obtain ⟨hne, -⟩ := tag_shape ht
  obtain ⟨c, ts, rfl⟩ : ∃ c ts, t = c :: ts := by
    cases t with
    | nil => exact absurd rfl hne
    | cons c ts => exact ⟨c, ts, rfl⟩
  have hanch : anchorOf (c :: ts) = c :: (ts ++ [':']) := rfl
  have hshape : (anchorOf (c :: ts) ++ v) ++ z = c :: (((ts ++ [':']) ++ v) ++ z) := by
    rw [hanch]; simp
  have hstart : anchorHere (c :: (((ts ++ [':']) ++ v) ++ z)) = true := by
    rw [← hshape, List.append_assoc]
    exact anchorHere_anchor ht _
  have hlena : (anchorOf (c :: ts)).length = (ts ++ [':']).length + 1 := by
    rw [hanch, List.length_cons]
  have hwalk : ∀ i, i < ((ts ++ [':']) ++ v).length →
      anchorHere (((ts ++ [':']) ++ v).drop i ++ z) = false := by
    intro i hi
    by_cases hcase : i < (ts ++ [':']).length
    · have hdrop : ((ts ++ [':']) ++ v).drop i = (ts ++ [':']).drop i ++ v := by
        rw [List.drop_append_eq_append_drop, Nat.sub_eq_zero_of_le (le_of_lt hcase),
          List.drop_zero]
      have hd2 : (ts ++ [':']).drop i = (anchorOf (c :: ts)).drop (i + 1) := by
        rw [hanch, List.drop_succ_cons]
      rw [hdrop, hd2, List.append_assoc]
      exact anchorHere_inside_anchor ht (Nat.succ_le_succ (Nat.zero_le i)) (by omega) (v ++ z)
    · have hile : (ts ++ [':']).length ≤ i := le_of_not_lt hcase
      have hdrop : ((ts ++ [':']) ++ v).drop i = v.drop (i - (ts ++ [':']).length) := by
        rw [List.drop_append_eq_append_drop, List.drop_eq_nil_of_le hile, List.nil_append]
      rw [hdrop]
      apply anchorHere_value hv hz
      rw [List.length_append] at hi
      omega
  have hrev : ((ts ++ [':']) ++ v).reverse ++ [c] = (anchorOf (c :: ts) ++ v).reverse := by
    rw [hanch, List.cons_append, List.reverse_cons]
  constructor
  · rw [hshape]
    simp only [extractAux, hstart, if_true]
    rw [extractAux_walk z ((ts ++ [':']) ++ v) [c] hwalk, hrev]
  · intro buf
    rw [hshape]
    simp only [extractAux, hstart, if_true]
    rw [extractAux_walk z ((ts ++ [':']) ++ v) [c] hwalk, hrev]

/-- The scanner recovers exactly the segment texts from a render of good
segments. -/
theorem extractAux_render : ∀ (segs : List (Str × Str)), goodSegs segs = true →
    extractAux (render segs) none = segs.map segStr ∧
    ∀ buf, extractAux (render segs) (some buf) = buf.reverse :: segs.map segStr := by
  intro segs
  induction segs with
  | nil => exact fun _ => ⟨rfl, fun _ => rfl⟩
  | cons p rest ih =>
    intro hgood
    obtain ⟨t, v⟩ := p
    have hg : goodSeg (t, v) = true ∧ goodSegs rest = true := by
      simpa [goodSegs] using hgood
    have hg1 : tags.contains t = true ∧ valueOk v = true := by
      simpa [goodSeg] using hg.1
    have ht : t ∈ tags := mem_of_containsTag hg1.1
    have ihr := ih hg.2
    have hz : render rest = [] ∨ anchorHere (render rest) = true := by
      cases rest with
      | nil => exact Or.inl rfl
      | cons q qs =>
        right
        have hgq : goodSeg q = true := by
          have := hg.2
          simp only [goodSegs, List.all_cons, Bool.and_eq_true] at this
          exact this.1
        have htq : q.1 ∈ tags := mem_of_containsTag (by
          simp only [goodSeg, Bool.and_eq_true] at hgq
          exact hgq.1)
        have hrq : render (q :: qs) = anchorOf q.1 ++ (q.2 ++ render qs) := by
          show (anchorOf q.1 ++ q.2) ++ render qs = _
          rw [List.append_assoc]
        rw [hrq]
        exact anchorHere_anchor htq _
    have hseg := extractAux_seg ht hg1.2 hz
    refine ⟨?_, fun buf => ?_⟩
    · show extractAux ((anchorOf t ++ v) ++ render rest) none = _
      rw [hseg.1, ihr.2 _, List.reverse_reverse]
      rfl
    · show extractAux ((anchorOf t ++ v) ++ render rest) (some buf) = _
      rw [hseg.2 buf, ihr.2 _, List.reverse_reverse]
      rfl

/-- The full match list of a render of good segments. -/
theorem extractAll_render (segs : List (Str × Str)) (h : goodSegs segs = true) :
    extractAll (render segs) = segs.map segStr :=
  (extractAux_render segs h).1

/-- Boolean tag-list membership from Prop membership. -/
theorem containsTag_of_mem {t : Str} (h : t ∈ tags) : tags.contains t = true := by
  simpa using h

/-- `dropWhile` passes over an appended block once it hits an element the
predicate rejects. -/
theorem dropWhile_append_stop (p : Char → Bool) (c : Char) (hc : p c = false) :
    ∀ (x l : Str), List.dropWhile p (x ++ c :: l) = List.dropWhile p x ++ c :: l := by
  intro x l
  induction x with
  | nil => simp [List.dropWhile_cons, hc]
  | cons a xs ih =>
    simp only [List.cons_append, List.dropWhile_cons]
    cases ha : p a <;> simp [ha, ih]

/-- Right-stripping semicolons distributes over an append whose left part
ends with a non-semicolon character. -/
theorem rstripSemi_append_last {l : Str} {c : Char} (hc : (c == ';') = false) (v : Str) :
    rstripSemi ((l ++ [c]) ++ v) = (l ++ [c]) ++ rstripSemi v := by
  unfold rstripSemi
  have h1 : ((l ++ [c]) ++ v).reverse = v.reverse ++ (c :: l.reverse) := by
    rw [List.reverse_append, List.reverse_append]
    simp
  rw [h1, dropWhile_append_stop (fun x => x == ';') c hc, List.reverse_append, List.reverse_cons]
  simp

/-- Splitting at the first colon of `t ++ ":" ++ v` recovers `t` and `v`
when `t` is colon-free. -/
theorem splitOnce_colon : ∀ (t : Str), ':' ∉ t → ∀ (v : Str),
    splitOnce ':' (t ++ ':' :: v) = (t, some v) := by
  intro t
  induction t with
  | nil => intro _ v; simp [splitOnce]
  | cons c ts ih =>
    intro hnc v
    have hcne : c ≠ ':' := fun h => hnc (by rw [h]; exact List.mem_cons_self _ _)
    have hc : (c == ':') = false := beq_eq_false_iff_ne.mpr hcne
    have hts : ':' ∉ ts := fun h => hnc (List.mem_cons_of_mem _ h)
    simp [splitOnce, hc, ih hts v]

/-- The Field Extractor's tag-to-value mapping on a render of good
segments is exactly the segment list with trailing semicolons stripped
from each value. -/
theorem extractPairs_render (segs : List (Str × Str)) (h : goodSegs segs = true) :
    extractPairs (render segs) = segs.map (fun p => (p.1, rstripSemi p.2)) := by
  unfold extractPairs
  rw [extractAll_render segs h, List.map_map]
  apply List.map_congr_left
  intro p hp
  have hgp : goodSeg p = true := by
    rw [goodSegs, List.all_eq_true] at h
    exact h p hp
  have ht : p.1 ∈ tags := mem_of_containsTag (by
    simp only [goodSeg, Bool.and_eq_true] at hgp
    exact hgp.1)
  have hcolon : ':' ∉ p.1 := (tag_shape ht).2
  have h1 : rstripSemi (segStr p) = p.1 ++ ':' :: rstripSemi p.2 := by
    show rstripSemi ((p.1 ++ [':']) ++ p.2) = _
    rw [rstripSemi_append_last (by decide) p.2, List.append_cons p.1 ':' (rstripSemi p.2)]
  simp [Function.comp, h1, splitOnce_colon p.1 hcolon]

/-- Association-list lookup is invariant under permutation when the keys
are distinct. -/
theorem lookup_perm : ∀ {l₁ l₂ : List (Str × Str)}, l₁.Perm l₂ →
    (l₁.map Prod.fst).Nodup → ∀ k, l₁.lookup k = l₂.lookup k := by
  intro l₁ l₂ hp
  induction hp with
  | nil => intro _ _; rfl
  | cons x hperm ih =>
    rename_i t₁ t₂
    intro hnd k
    obtain ⟨a, b⟩ := x
    have hmap : List.map Prod.fst ((a, b) :: t₁) = a :: List.map Prod.fst t₁ := rfl
    have hnd' := (List.nodup_cons.mp (hmap ▸ hnd)).2
    cases hk : k == a <;> simp [List.lookup, hk, ih hnd' k]
  | swap x y l =>
    intro hnd k
    obtain ⟨a, b⟩ := x
    obtain ⟨c, d⟩ := y
    have hmap : List.map Prod.fst ((c, d) :: (a, b) :: l) = c :: a :: List.map Prod.fst l := rfl
    have hne : c ≠ a := by
      have h1 := (List.nodup_cons.mp (hmap ▸ hnd)).1
      intro h
      exact h1 (by rw [h]; exact List.mem_cons_self _ _)
    cases hk1 : k == c with
    | true =>
      have hk2 : (k == a) = false := by
        have : k = c := by simpa using hk1
        exact beq_eq_false_iff_ne.mpr (fun h => hne (by rw [← this, h]))
      simp [List.lookup, hk1, hk2]
    | false => cases hk2 : k == a <;> simp [List.lookup, hk1, hk2]
  | trans h1 h2 ih1 ih2 =>
    intro hnd k
    rw [ih1 hnd k]
    exact ih2 (((h1.map Prod.fst).nodup_iff).mp hnd) k

/-! Behaviour of the pivot-column tag check on well-formed batches. -/

/-- Shape of a pivot-grid entry: the tag, its colon, and the
semicolon-stripped value. -/
theorem cleanSeg_eq (p : Str × Str) :
    cleanSeg p = p.1 ++ ':' :: rstripSemi p.2 := by
  show rstripSemi ((p.1 ++ [':']) ++ p.2) = _
  rw [rstripSemi_append_last (by decide) p.2, ← List.append_cons]

/-- The tag label extracted from a pivot-grid entry is the segment's tag. -/
theorem tagOf_cleanSeg {p : Str × Str} (hp : goodSeg p = true) :
    tagOf (cleanSeg p) = p.1 := by
  have ht : p.1 ∈ tags := mem_of_containsTag (by
    simp only [goodSeg, Bool.and_eq_true] at hp
    exact hp.1)
  rw [tagOf, cleanSeg_eq p, splitOnce_colon p.1 (tag_shape ht).2]

/-- The value part extracted from a pivot-grid entry is defined and is the
segment's semicolon-stripped value. -/
theorem valOf_cleanSeg {p : Str × Str} (hp : goodSeg p = true) :
    (splitOnce ':' (cleanSeg p)).2 = some (rstripSemi p.2) := by
  have ht : p.1 ∈ tags := mem_of_containsTag (by
    simp only [goodSeg, Bool.and_eq_true] at hp
    exact hp.1)
  rw [cleanSeg_eq p, splitOnce_colon p.1 (tag_shape ht).2]

/-- Membership survives `dedupR`. -/
theorem dedupR_mem : ∀ {l : List Str} {x : Str}, x ∈ l → x ∈ dedupR l := by
  intro l
  induction l with
  | nil => intro x hx; exact absurd hx (List.not_mem_nil x)
  | cons y ys ih =>
    intro x hx
    rcases List.mem_cons.mp hx with rfl | hx'
    · by_cases hc : x ∈ dedupR ys <;> simp [dedupR, hc]
    · have hm := ih hx'
      by_cases hc : y ∈ dedupR ys <;> simp [dedupR, hc, hm]

/-- A singleton `dedupR` result forces every element to equal it. -/
theorem dedupR_singleton_all {l : List Str} {a : Str} (h : dedupR l = [a]) :
    ∀ x ∈ l, x = a := by
  intro x hx
  have := dedupR_mem hx
  rw [h] at this
  simpa using this

/-- A nonempty constant list deduplicates to the singleton. -/
theorem dedupR_const {a : Str} : ∀ (l : List Str), l ≠ [] → (∀ x ∈ l, x = a) →
    dedupR l = [a] := by
  intro l
  induction l with
  | nil => intro h _; exact absurd rfl h
  | cons y ys ih =>
    intro _ hall
    have hy : y = a := hall y (List.mem_cons_self _ _)
    subst hy
    cases ys with
    | nil => simp [dedupR]
    | cons z zs =>
      have h2 : dedupR (z :: zs) = [y] :=
        ih (List.cons_ne_nil _ _) (fun x hx => hall x (List.mem_cons_of_mem _ hx))
      conv_lhs => rw [dedupR]
      rw [h2]
      simp

/-- An all-ok stretch of columns followed by a failing column makes the
whole left-to-right loop fail with the same error. -/
theorem stepCols_error_at (grid : List (List Str)) (e : Err) :
    ∀ (js1 : List Nat) (j : Nat) (js2 : List Nat),
    (∀ a ∈ js1, ∃ out, stepCol grid a = .ok out) →
    stepCol grid j = .error e →
    stepCols grid (js1 ++ j :: js2) = .error e := by
  intro js1
  induction js1 with
  | nil =>
    intro j js2 _ hj
    simp only [List.nil_append, stepCols, hj]
    rfl
  | cons a rest ih =>
    intro j js2 hok hj
    obtain ⟨out, hout⟩ := hok a (List.mem_cons_self _ _)
    have htail := ih j js2 (fun b hb => hok b (List.mem_cons_of_mem _ hb)) hj
    simp only [List.cons_append, stepCols, List.append_eq, hout, htail]
    rfl

/-- The reduce of row lengths over a nonempty constant-length grid is the
common length. -/
theorem foldr_max_const (m : Nat) : ∀ (grid : List (List Str)), grid ≠ [] →
    (∀ r ∈ grid, r.length = m) →
    grid.foldr (fun r acc => max r.length acc) 0 = m := by
  intro grid
  induction grid with
  | nil => intro h _; exact absurd rfl h
  | cons r rest ih =>
    intro _ hall
    have hr : r.length = m := hall r (List.mem_cons_self _ _)
    cases rest with
    | nil => simp [hr]
    | cons q qs =>
      have h2 : (q :: qs).foldr (fun r acc => max r.length acc) 0 = m :=
        ih (List.cons_ne_nil _ _) (fun x hx => hall x (List.mem_cons_of_mem _ hx))
      simp [List.foldr_cons, hr, h2]

/-- Good segments of a good list. -/
theorem goodSeg_of_mem {segs : List (Str × Str)} (h : goodSegs segs = true)
    {p : Str × Str} (hp : p ∈ segs) : goodSeg p = true := by
  rw [goodSegs, List.all_eq_true] at h
  exact h p hp

/-- The pivot grid of a batch of rendered nonempty good segment lists:
one row per record, each row listing its semicolon-stripped matches. -/
theorem pivotGrid_render (segsList : List (List (Str × Str)))
    (hgood : ∀ segs ∈ segsList, goodSegs segs = true)
    (hne : ∀ segs ∈ segsList, segs ≠ []) :
    pivotGrid (segsList.map (fun segs => some (render segs))) =
      segsList.map (fun segs => segs.map cleanSeg) := by
  unfold pivotGrid
  rw [List.map_map]
  have h1 : segsList.map (cellMatches ∘ (fun segs => some (render segs))) =
      segsList.map (fun segs => segs.map segStr) := by
    apply List.map_congr_left
    intro segs hs
    show cellMatches (some (render segs)) = segs.map segStr
    show extractAll (render segs) = segs.map segStr
    exact extractAll_render segs (hgood segs hs)
  rw [h1]
  have h2 : (segsList.map (fun segs => segs.map segStr)).filter (fun r => !r.isEmpty) =
      segsList.map (fun segs => segs.map segStr) := by
    rw [List.filter_eq_self]
    intro a ha
    obtain ⟨segs, hs, rfl⟩ := List.mem_map.mp ha
    have hsne := hne segs hs
    cases segs with
    | nil => exact absurd rfl hsne
    | cons p ps => simp
  rw [h2, List.map_map]
  apply List.map_congr_left
  intro segs _
  show (segs.map segStr).map rstripSemi = segs.map cleanSeg
  rw [List.map_map]
  rfl

/-- The column extracted from the pivot grid of a rendered batch. -/
theorem stepCol_col (segsList : List (List (Str × Str))) (j : Nat) :
    (segsList.map (fun segs => segs.map cleanSeg)).map (fun r => r[j]?) =
      segsList.map (fun segs => (segs[j]?).map cleanSeg) := by
  rw [List.map_map]
  apply List.map_congr_left
  intro segs _
  show (segs.map cleanSeg)[j]? = _
  rw [List.getElem?_map]

/-- A pivot column whose records all carry the same tag at position `j`
passes the consistency check of lines 49-61. -/
theorem stepCol_ok (segsList : List (List (Str × Str))) (m : Nat) (a : Str)
    (hgood : ∀ segs ∈ segsList, goodSegs segs = true)
    (hlen : ∀ segs ∈ segsList, segs.length = m)
    (hne : segsList ≠ []) {j : Nat} (hj : j < m)
    (htag : ∀ segs ∈ segsList, (segs.map Prod.fst)[j]? = some a) :
    ∃ out, stepCol (segsList.map (fun segs => segs.map cleanSeg)) j = .ok out := by
  have hsomecol : ∀ segs ∈ segsList, ∃ p, segs[j]? = some p ∧ p ∈ segs := by
    intro segs hs
    have hl : j < segs.length := by rw [hlen segs hs]; exact hj
    exact ⟨segs[j], List.getElem?_eq_getElem hl, List.getElem?_mem (List.getElem?_eq_getElem hl)⟩
  simp only [stepCol]
  rw [stepCol_col]
  have hnone : (segsList.map (fun segs => (segs[j]?).map cleanSeg)).any
      (fun c => c.isNone) = false := by
    rw [List.any_eq_false]
    intro c hc
    obtain ⟨segs, hs, rfl⟩ := List.mem_map.mp hc
    obtain ⟨p, hp, -⟩ := hsomecol segs hs
    simp [hp]
  rw [hnone]
  simp only [Bool.false_eq_true, if_false]
  have hnames : dedupR (((segsList.map (fun segs => (segs[j]?).map cleanSeg)).map
      (fun c => c.getD [])).map tagOf) = [a] := by
    apply dedupR_const
    · intro hmapnil
      rw [List.map_eq_nil_iff, List.map_eq_nil_iff, List.map_eq_nil_iff] at hmapnil
      exact hne hmapnil
    · intro x hx
      rw [List.map_map, List.map_map] at hx
      obtain ⟨segs, hs, rfl⟩ := List.mem_map.mp hx
      obtain ⟨p, hp, hpm⟩ := hsomecol segs hs
      have hgp : goodSeg p = true := goodSeg_of_mem (hgood segs hs) hpm
      have hta := htag segs hs
      rw [List.getElem?_map, hp] at hta
      have hpa : p.1 = a := by simpa using hta
      show tagOf (((segs[j]?).map cleanSeg).getD []) = a
      rw [hp]
      simpa [tagOf_cleanSeg hgp] using hpa
  rw [hnames]
  have hparts : (((segsList.map (fun segs => (segs[j]?).map cleanSeg)).map
      (fun c => c.getD [])).map (fun v => (splitOnce ':' v).2)).any
      (fun p => p.isNone) = false := by
    rw [List.any_eq_false]
    intro c hc
    rw [List.map_map, List.map_map] at hc
    obtain ⟨segs, hs, rfl⟩ := List.mem_map.mp hc
    obtain ⟨p, hp, hpm⟩ := hsomecol segs hs
    have hgp : goodSeg p = true := goodSeg_of_mem (hgood segs hs) hpm
    show ¬((splitOnce ':' (((segs[j]?).map cleanSeg).getD [])).2).isNone = true
    rw [hp]
    simp [valOf_cleanSeg hgp]
  rw [hparts]
  simp only [Bool.false_eq_true, if_false]
  exact ⟨_, rfl⟩

/-- A pivot column carrying two distinct tags fails the consistency check
with the fatal `exit()` (modelled `malformed`). -/
theorem stepCol_bad (segsList : List (List (Str × Str))) (m : Nat)
    (hgood : ∀ segs ∈ segsList, goodSegs segs = true)
    (hlen : ∀ segs ∈ segsList, segs.length = m)
    {j : Nat} (hj : j < m)
    (r1 r2 : List (Str × Str)) (h1 : r1 ∈ segsList) (h2 : r2 ∈ segsList)
    (hdiff : (r1.map Prod.fst)[j]? ≠ (r2.map Prod.fst)[j]?) :
    stepCol (segsList.map (fun segs => segs.map cleanSeg)) j = .error .malformed := by
  have hsomecol : ∀ segs ∈ segsList, ∃ p, segs[j]? = some p ∧ p ∈ segs := by
    intro segs hs
    have hl : j < segs.length := by rw [hlen segs hs]; exact hj
    exact ⟨segs[j], List.getElem?_eq_getElem hl, List.getElem?_mem (List.getElem?_eq_getElem hl)⟩
  simp only [stepCol]
  rw [stepCol_col]
  have hnone : (segsList.map (fun segs => (segs[j]?).map cleanSeg)).any
      (fun c => c.isNone) = false := by
    rw [List.any_eq_false]
    intro c hc
    obtain ⟨segs, hs, rfl⟩ := List.mem_map.mp hc
    obtain ⟨p, hp, -⟩ := hsomecol segs hs
    simp [hp]
  rw [hnone]
  simp only [Bool.false_eq_true, if_false]
  obtain ⟨p1, hp1, hm1⟩ := hsomecol r1 h1
  obtain ⟨p2, hp2, hm2⟩ := hsomecol r2 h2
  have hne12 : p1.1 ≠ p2.1 := by
    intro heq
    apply hdiff
    rw [List.getElem?_map, List.getElem?_map, hp1, hp2]
    simpa using heq
  have hmemname : ∀ (r : List (Str × Str)) (p : Str × Str), r ∈ segsList → r[j]? = some p →
      p ∈ r → p.1 ∈ ((segsList.map (fun segs => (segs[j]?).map cleanSeg)).map
        (fun c => c.getD [])).map tagOf := by
    intro r p hr hpj hpmem
    rw [List.map_map, List.map_map]
    apply List.mem_map.mpr
    refine ⟨r, hr, ?_⟩
    show tagOf (((r[j]?).map cleanSeg).getD []) = p.1
    rw [hpj]
    simp [tagOf_cleanSeg (goodSeg_of_mem (hgood r hr) hpmem)]
  have ha := hmemname r1 p1 h1 hp1 hm1
  have hb := hmemname r2 p2 h2 hp2 hm2
  rcases hd : dedupR (((segsList.map (fun segs => (segs[j]?).map cleanSeg)).map
      (fun c => c.getD [])).map tagOf) with - | ⟨n, - | ⟨n2, rest⟩⟩
  · rw [hd]
  · exact absurd (by rw [dedupR_singleton_all hd p1.1 ha, dedupR_singleton_all hd p2.1 hb])
      hne12
  · rw [hd]

/-- Reading the single column of a one-column frame returns its cells. -/
theorem getCol_single (name : Str) (cells : List Cell) :
    getCol { cols := [name], rows := cells.map (fun c => [c]) } name = .ok cells := by
  unfold getCol colCount colIdx idxOf
  simp only [List.map_map]
  have hf : ([name].filter (fun c => c == name)).length = 1 := by simp
  have hi : (if name == name then some 0 else (idxOf [] name).map (· + 1)) = some 0 := by simp
  simp only [hf, hi]
  have h : List.map ((fun r : List Cell => (r[0]?).join) ∘ fun c => [c]) cells =
      List.map id cells := List.map_congr_left (fun a _ => rfl)
  rw [h, List.map_id]

/-- Bind reduction for a successful `Except` value. -/
theorem exceptBind_ok {ε α β : Type} (x : α) (f : α → Except ε β) :
    (Except.ok x >>= f) = f x := rfl

/-- Bind reduction for a failed `Except` value. -/
theorem exceptBind_error {ε α β : Type} (e : ε) (f : α → Except ε β) :
    ((Except.error e : Except ε α) >>= f) = Except.error e := rfl

/-- An index below `n` splits `range n` around itself. -/
theorem range_split {i n : Nat} (h : i < n) :
    ∃ l2, List.range n = List.range i ++ i :: l2 := by
  obtain ⟨k, hk⟩ : ∃ k, n = (i + 1) + k := ⟨n - (i + 1), by omega⟩
  subst hk
  rw [List.range_add, List.range_succ]
  refine ⟨List.map (fun x => i + 1 + x) (List.range k), ?_⟩
  rw [List.append_assoc, List.singleton_append]

/-! Round-trip lemmas for the comma split. -/

/-- No anchor contains a comma. -/
theorem tag_no_comma {t : Str} (ht : t ∈ tags) : ',' ∉ anchorOf t := by
  have hf : tags.all (fun t => !(anchorOf t).contains ',') = true := by decide
  rw [List.all_eq_true] at hf
  have h := hf t ht
  intro hmem
  rw [Bool.not_eq_true', List.contains_eq_any_beq, List.any_eq_false] at h
  exact absurd (by simp) (h ',' hmem)

/-- Two clean values joined by a character that occurs in no anchor form a
clean value: an anchor cannot sit inside either part nor straddle the
separator. -/
theorem valueOk_append_sep {a b : Str} {c : Char} (hc : ∀ t ∈ tags, c ∉ anchorOf t)
    (ha : valueOk a = true) (hb : valueOk b = true) : valueOk (a ++ c :: b) = true := by
  rw [valueOk, List.all_eq_true]
  intro i hi
  rw [List.mem_range] at hi
  rw [Bool.not_eq_true', anchorHere_eq_false]
  intro t' ht' hpre
  rw [List.drop_append_eq_append_drop] at hpre
  by_cases hcase : i < a.length
  · rw [Nat.sub_eq_zero_of_le (le_of_lt hcase), List.drop_zero] at hpre
    have hs_pre : a.drop i <+: a.drop i ++ c :: b := List.prefix_append _ _
    have hvi : ∀ w ∈ tags, ¬ (anchorOf w <+: a.drop i) :=
      anchorHere_eq_false.mp (valueOk_prop ha hcase)
    rcases prefixTotal hpre hs_pre with hc2 | hc2
    · exact hvi t' ht' hc2
    · obtain ⟨tail, htail⟩ := hc2
      cases htn : tail with
      | nil =>
        rw [htn, List.append_nil] at htail
        exact hvi t' ht' (htail ▸ List.prefix_refl _)
      | cons c0 tl =>
        have htail_pre : tail <+: c :: b := by
          have hx : a.drop i ++ tail <+: a.drop i ++ c :: b := htail ▸ hpre
          exact prefixCancel hx
        rw [htn] at htail_pre
        have hc0 : c0 = c := (List.cons_prefix_cons.mp htail_pre).1
        apply hc t' ht'
        rw [← htail, htn, hc0]
        exact List.mem_append_right _ (List.mem_cons_self _ _)
  · rw [List.drop_eq_nil_of_le (le_of_not_lt hcase), List.nil_append] at hpre
    cases h0 : i - a.length with
    | zero =>
      rw [h0, List.drop_zero] at hpre
      obtain ⟨hne, -⟩ := tag_shape ht'
      cases ht0 : t' with
      | nil => exact hne ht0
      | cons x xs =>
        have : x = c := by
          have hx : anchorOf (x :: xs) = x :: (xs ++ [':']) := rfl
          rw [ht0] at hpre
          rw [hx] at hpre
          exact (List.cons_prefix_cons.mp hpre).1
        apply hc t' ht'
        rw [ht0, ← this]
        show x ∈ (x :: xs) ++ [':']
        exact List.mem_append_left _ (List.mem_cons_self _ _)
    | succ k =>
      rw [h0, List.drop_succ_cons] at hpre
      have hk : k < b.length := by
        rw [List.length_append, List.length_cons] at hi
        omega
      exact anchorHere_eq_false.mp (valueOk_prop hb hk) t' ht' hpre

/-- A comma-join of clean comma-free sub-values is a clean value. -/
theorem valueOk_joinComma : ∀ (parts : List Str), (∀ s ∈ parts, valueOk s = true) →
    valueOk (joinComma parts) = true := by
  intro parts
  induction parts with
  | nil => intro _; rfl
  | cons x xs ih =>
    intro hall
    cases xs with
    | nil => exact hall x (List.mem_cons_self _ _)
    | cons y ys =>
      show valueOk (x ++ ',' :: joinComma (y :: ys)) = true
      exact valueOk_append_sep (fun t ht => tag_no_comma ht)
        (hall x (List.mem_cons_self _ _))
        (ih (fun s hs => hall s (List.mem_cons_of_mem _ hs)))

/-- Python split of a separator-free string is the singleton. -/
theorem pySplit_no_sep (sep : Char) : ∀ (x : Str), sep ∉ x → pySplit sep x = [x] := by
  intro x
  induction x with
  | nil => intro _; rfl
  | cons c rest ih =>
    intro h
    have hcs : (c == sep) = false :=
      beq_eq_false_iff_ne.mpr (fun hceq => h (hceq ▸ List.mem_cons_self _ _))
    have hr : pySplit sep rest = [rest] := ih (fun hm => h (List.mem_cons_of_mem _ hm))
    simp [pySplit, hcs, hr]

/-- Python split peels a separator-free prefix off at the first
separator. -/
theorem pySplit_append (sep : Char) : ∀ (x r : Str), sep ∉ x →
    pySplit sep (x ++ sep :: r) = x :: pySplit sep r := by
  intro x
  induction x with
  | nil =>
    intro r _
    simp [pySplit]
  | cons c rest ih =>
    intro r h
    have hcs : (c == sep) = false :=
      beq_eq_false_iff_ne.mpr (fun hceq => h (hceq ▸ List.mem_cons_self _ _))
    have hr := ih r (fun hm => h (List.mem_cons_of_mem _ hm))
    simp [pySplit, hcs, hr]

/-- Python split inverts the comma join of comma-free sub-values. -/
theorem pySplit_joinComma : ∀ (parts : List Str), parts ≠ [] →
    (∀ s ∈ parts, ',' ∉ s) → pySplit ',' (joinComma parts) = parts := by
  intro parts
  induction parts with
  | nil => intro h _; exact absurd rfl h
  | cons x xs ih =>
    intro _ hall
    cases xs with
    | nil => exact pySplit_no_sep ',' x (hall x (List.mem_cons_self _ _))
    | cons y ys =>
      show pySplit ',' (x ++ ',' :: joinComma (y :: ys)) = _
      rw [pySplit_append ',' x _ (hall x (List.mem_cons_self _ _)),
        ih (List.cons_ne_nil _ _) (fun s hs => hall s (List.mem_cons_of_mem _ hs))]

/-- The pivot-column check on a single-record, single-match grid returns
the tag and the value after the first colon. -/
theorem stepCol_single (p : Str × Str) (hp : goodSeg p = true) :
    stepCol [[cleanSeg p]] 0 = .ok (p.1, [rstripSemi p.2]) := by
  simp only [stepCol, List.map_cons, List.map_nil, List.getElem?_cons_zero,
    Option.getD_some, tagOf_cleanSeg hp, valOf_cleanSeg hp, List.any_cons, List.any_nil,
    Option.isNone_some, Bool.or_false, Bool.false_eq_true, if_false]
  rfl

/-- The full Annotation decomposition of a single record holding one good
segment. -/
theorem annotStep_single (p : Str × Str) (hp : goodSeg p = true) :
    annotStep [some (render [p])] = .ok ([p.1], [[rstripSemi p.2]]) := by
  have hpg : pivotGrid [some (render [p])] = [[cleanSeg p]] := by
    have h := pivotGrid_render [[p]]
      (by
        intro s hs
        have : s = [p] := by simpa using hs
        subst this
        simpa [goodSegs] using hp)
      (by
        intro s hs
        have : s = [p] := by simpa using hs
        subst this
        exact List.cons_ne_nil _ _)
    exact h
  simp only [annotStep, hpg]
  have hsc : stepCols [[cleanSeg p]] [0] = .ok [(p.1, [rstripSemi p.2])] := by
    simp only [stepCols, stepCol_single p hp, exceptBind_ok]
  rw [show List.range ([[cleanSeg p]].foldr (fun r acc => max r.length acc) 0) = [0] from rfl,
    hsc]
  rfl

/-! Claim theorems. -/

/-- C1: the specification says the raw value
`OncoKB:Oncogenic,level 3,resistance None` yields the mapping
`{OncoKB: "Oncogenic", OncoKB_level: "3", OncoKB_resistance: "None"}`.
The code cannot produce it: after the comma split the columns are named
`OncoKB_0`, `OncoKB_1`, `OncoKB_2` (line 68), yet line 73 immediately reads
`df["OncoKB_level"]`, a label only created by the rename of line 148, so
the script dies with `KeyError("OncoKB_level")` and writes nothing.  This
theorem evaluates the embedded script at the failing input. -/
theorem C1_oncokb_keyerror :
    processTsv oncoExample = .error (.keyErr (("OncoKB_level").data)) := by decide

/-- C2 counterexample: the claim says a record lacking a tag that another
record has still appears in the output with empty strings in that tag's
columns.  On the batch `["OncoKB:Oncogenic;reVUE:foo", "reVUE:foo"]` the
pivot's first column holds an OncoKB match for record 1 and a reVUE match
for record 2, the tag-consistency check of lines 49-56 sees two distinct
labels and the script calls `exit()`: no record is output at all, so the
claimed invariant fails. -/
theorem C2_mixed_tags_halt :
    processTsv mixedTagBatch = .error .malformed := by decide

/-- C2 amended: the empty-string backfill does happen in the narrower case
where the lacking record has no recognized tag at all (and the batch avoids
the OncoKB crash of C1): record 2 of `civicBackfillBatch` has a NaN
annotation, is dropped by `extractall`, rejoins as NaN, and the
`fillna("")` of line 144 leaves its derived CIViC columns as empty strings,
with both rows sharing one column set. -/
theorem C2_backfill_when_no_tags :
    processTsv civicBackfillBatch =
      .ok (.wrote { cols := [("CIViC_diagnosticCount").data, ("CIViC_predictiveCount").data],
                    rows := [[some (("1").data), some (("2").data)],
                             [some [], some []]] }) := by decide

/-- C7 counterexample: the claim says only a leading `level ` label is
stripped and occurrences of the substring elsewhere in the value are
preserved.  The code uses `str.replace("level ", "")` (line 73), which
removes every occurrence: on `level level 3` it produces `3`, not the
`level 3` the claim requires. -/
theorem C7_replace_hits_all_occurrences :
    pyReplace (("level ").data) [] (("level level 3").data) = ("3").data ∧
    pyReplace (("level ").data) [] (("level level 3").data) ≠ ("level 3").data := by
  constructor
  · decide
  · decide

/-- C7 amended: `str.replace` removes every occurrence of the label, so
the leading-label strip of the rename table is only guaranteed when the
label does not occur again in the remainder of the sub-value; in that case
exactly the leading `level ` (resp. `resistance `) is removed. -/
theorem C7_strip_leading_label (s t : Str)
    (hs : hasSubstr (("level ").data) s = false)
    (ht : hasSubstr (("resistance ").data) t = false) :
    pyReplace (("level ").data) [] ((("level ").data) ++ s) = s ∧
    pyReplace (("resistance ").data) [] ((("resistance ").data) ++ t) = t :=
  ⟨pyReplace_strip_leading _ s (by decide) hs,
   pyReplace_strip_leading _ t (by decide) ht⟩

/-- C7 witness: the amended statement at the sub-values `3` and `None` of
the specification's worked example. -/
theorem C7_strip_leading_label_witness :
    pyReplace (("level ").data) [] ((("level ").data) ++ ("3").data) = ("3").data ∧
    pyReplace (("resistance ").data) [] ((("resistance ").data) ++ ("None").data) = ("None").data :=
  C7_strip_leading_label (("3").data) (("None").data) (by decide) (by decide)

/-- C8 counterexample: the claim says an empty batch "writes an empty
output".  The code (lines 26-28) prints a warning and `continue`s without
ever reaching `to_csv`, so no output file is written for that batch. -/
theorem C8_empty_batch_writes_nothing :
    processTsv { cols := [("Annotation").data], rows := [] } = .ok .skippedEmpty ∧
    writesOutput (processTsv { cols := [("Annotation").data], rows := [] }) = false := by
  constructor
  · rfl
  · rfl

/-- C8 amended: a batch with zero records produces zero normalized
records, emits the warning diagnostic, is not an error and does not halt
the run — but no output file is written (the loop `continue`s before
`to_csv`), whatever the column set. -/
theorem C8_empty_batch_skipped (cols : List Str) :
    processTsv { cols := cols, rows := [] } = .ok .skippedEmpty := rfl

/-- C9: a failing worker task is logged and excluded from the collected
result set while every sibling task's result is kept: the concatenated
frame over a batch containing a failure equals the one over the batch
without it, and the failure message is appended to the log in place.
Completion order of `as_completed` only permutes the collection order,
which these equations do not depend on. -/
theorem C9_partial_success (pre post : List (Except Str Frame)) (e : Str) :
    (concurrent_read_tsv (pre ++ Except.error e :: post)).1 =
      (concurrent_read_tsv (pre ++ post)).1 ∧
    (concurrent_read_tsv (pre ++ Except.error e :: post)).2 =
      (collectResults pre).2 ++ e :: (collectResults post).2 := by
  constructor <;>
    simp [concurrent_read_tsv, collectResults_append, collectResults]

/-- C4: two records of one batch that decompose to different tag labels at
the same match position make the whole batch processing halt with the
fatal tag-consistency condition (the `exit()` of lines 49-56, modelled
`malformed`), and no output file is written for the batch; this is not a
recoverable per-record skip.  Records are given as well-formed tag/value
segment lists of a common length `m`. -/
theorem C4_inconsistent_tags_fatal
    (segsList : List (List (Str × Str))) (m : Nat)
    (hgood : ∀ segs ∈ segsList, goodSegs segs = true)
    (hne : ∀ segs ∈ segsList, segs ≠ [])
    (hlen : ∀ segs ∈ segsList, segs.length = m)
    (j : Nat) (hj : j < m)
    (r1 r2 : List (Str × Str)) (h1 : r1 ∈ segsList) (h2 : r2 ∈ segsList)
    (hdiff : (r1.map Prod.fst)[j]? ≠ (r2.map Prod.fst)[j]?) :
    processTsv (annotBatch segsList) = .error .malformed := by
  have hlne : segsList ≠ [] := by
    intro h0
    rw [h0] at h1
    exact absurd h1 (List.not_mem_nil _)
  have hP : ∃ i, ∃ s1 ∈ segsList, ∃ s2 ∈ segsList,
      (s1.map Prod.fst)[i]? ≠ (s2.map Prod.fst)[i]? := ⟨j, r1, h1, r2, h2, hdiff⟩
  have hPj0 := Nat.find_spec hP
  have hj0le : Nat.find hP ≤ j := Nat.find_min' hP ⟨r1, h1, r2, h2, hdiff⟩
  have hj0m : Nat.find hP < m := lt_of_le_of_lt hj0le hj
  have hgrid_ne : segsList.map (fun segs => segs.map cleanSeg) ≠ [] := by
    rw [Ne, List.map_eq_nil_iff]
    exact hlne
  have hfold : (segsList.map (fun segs => segs.map cleanSeg)).foldr
      (fun r acc => max r.length acc) 0 = m := by
    apply foldr_max_const m _ hgrid_ne
    intro r hr
    obtain ⟨segs, hs, rfl⟩ := List.mem_map.mp hr
    rw [List.length_map]
    exact hlen segs hs
  obtain ⟨js2, hrange⟩ := range_split hj0m
  have hstep : stepCols (segsList.map (fun segs => segs.map cleanSeg))
      (List.range m) = .error .malformed := by
    rw [hrange]
    apply stepCols_error_at
    · intro a ha
      have ham : a < Nat.find hP := List.mem_range.mp ha
      have hnotP := Nat.find_min hP ham
      push_neg at hnotP
      obtain ⟨s0, hs0⟩ := List.exists_mem_of_ne_nil segsList hlne
      have ha_m : a < m := lt_trans ham hj0m
      have ha_s0 : a < s0.length := by
        rw [hlen s0 hs0]
        exact ha_m
      have hq : (s0.map Prod.fst)[a]? = some (s0[a]).1 := by
        rw [List.getElem?_map, List.getElem?_eq_getElem ha_s0]
        rfl
      apply stepCol_ok segsList m (s0[a]).1 hgood hlen hlne ha_m
      intro segs hs
      rw [hnotP segs hs s0 hs0, hq]
    · obtain ⟨s1, hs1, s2, hs2, hd12⟩ := hPj0
      exact stepCol_bad segsList m hgood hlen hj0m s1 s2 hs1 hs2 hd12
  have hAstep : annotStep (segsList.map (fun segs => some (render segs))) =
      .error .malformed := by
    simp only [annotStep]
    rw [pivotGrid_render segsList hgood hne, hfold, hstep]
    rfl
  have hbatch : annotBatch segsList =
      { cols := [("Annotation").data],
        rows := (segsList.map (fun segs => some (render segs))).map (fun c => [c]) } := by
    unfold annotBatch
    rw [List.map_map]
    rfl
  have hget : getCol (annotBatch segsList) (("Annotation").data) =
      .ok (segsList.map (fun segs => some (render segs))) := by
    rw [hbatch]
    exact getCol_single _ _
  have hhas : hasCol (annotBatch segsList) (("Annotation").data) = true := rfl
  have hrowsne : (annotBatch segsList).rows.isEmpty = false := by
    show (segsList.map (fun segs => [some (render segs)])).isEmpty = false
    cases segsList with
    | nil => exact absurd rfl hlne
    | cons s ss => rfl
  simp only [processTsv, hrowsne, Bool.false_eq_true, if_false, annotBlock, hhas, if_true,
    hget, exceptBind_ok, hAstep, exceptBind_error]

/-- C4 witness: a two-record batch with the tags in opposite orders halts
with the fatal tag-consistency condition. -/
theorem C4_inconsistent_tags_fatal_witness :
    processTsv (annotBatch
      [[(("OncoKB").data, ("x;").data), (("reVUE").data, ("y").data)],
       [(("reVUE").data, ("y;").data), (("OncoKB").data, ("x").data)]]) = .error .malformed :=
  C4_inconsistent_tags_fatal
    [[(("OncoKB").data, ("x;").data), (("reVUE").data, ("y").data)],
     [(("reVUE").data, ("y;").data), (("OncoKB").data, ("x").data)]] 2
    (by decide) (by decide) (by decide) 0 (by decide)
    [(("OncoKB").data, ("x;").data), (("reVUE").data, ("y").data)]
    [(("reVUE").data, ("y;").data), (("OncoKB").data, ("x").data)]
    (by decide) (by decide) (by decide)

/-- C6 amended: pushing a record through Extractor, Splitter and Renamer
round-trips every sub-value only modulo the conditional label strip as
well as the whitespace trim: for a record whose Annotation is one
well-formed CIViC segment of six comma-free, anchor-free sub-values (and
no trailing semicolon), each output cell is the trimmed, conditionally
label-stripped (text after the first colon, when one is present)
sub-value, not the trimmed sub-value itself. -/
theorem C6_roundtrip_label_strip (s0 s1 s2 s3 s4 s5 : Str)
    (hok : ∀ s ∈ [s0, s1, s2, s3, s4, s5], valueOk s = true ∧ ',' ∉ s)
    (hsemi : rstripSemi (joinComma [s0, s1, s2, s3, s4, s5]) =
      joinComma [s0, s1, s2, s3, s4, s5]) :
    processTsv (annotBatch [[(("CIViC").data, joinComma [s0, s1, s2, s3, s4, s5])]]) =
      .ok (.wrote
        { cols := [("CIViC_diagnosticCount").data, ("CIViC_predictiveCount").data,
                   ("CIViC_prognosticCount").data, ("CIViC_predisposingCount").data,
                   ("CIViC_oncogenicCount").data, ("CIViC_functionalCount").data],
          rows := [[some (pyStrip (condSplit s0)), some (pyStrip (condSplit s1)),
                    some (pyStrip (condSplit s2)), some (pyStrip (condSplit s3)),
                    some (pyStrip (condSplit s4)), some (pyStrip (condSplit s5))]] }) := by
  set v := joinComma [s0, s1, s2, s3, s4, s5] with hvdef
  have hvok : valueOk v = true := valueOk_joinComma _ (fun s hs => (hok s hs).1)
  have hgseg : goodSeg ((("CIViC").data, v)) = true := by
    simp only [goodSeg, Bool.and_eq_true]
    exact ⟨by decide, hvok⟩
  have hsplit : pySplit ',' v = [s0, s1, s2, s3, s4, s5] :=
    pySplit_joinComma _ (List.cons_ne_nil _ _) (fun s hs => (hok s hs).2)
  have h_rows : (annotBatch [[((("CIViC").data, v))]]).rows.isEmpty = false := rfl
  have h_has : hasCol (annotBatch [[((("CIViC").data, v))]]) (("Annotation").data) = true := rfl
  have h_get : getCol (annotBatch [[((("CIViC").data, v))]]) (("Annotation").data) =
      .ok [some (render [((("CIViC").data, v))])] := rfl
  have h_A : annotStep [some (render [((("CIViC").data, v))])] =
      .ok ([("CIViC").data], [[v]]) := by
    rw [annotStep_single _ hgseg, hsemi]
  have h_J : annotJoinF (annotBatch [[((("CIViC").data, v))]]) [("CIViC").data] [[v]] =
      .ok { cols := [("Annotation").data, ("CIViC").data],
            rows := [[some (render [((("CIViC").data, v))]), some v]] } := rfl
  have h_O :
      oncoKbStep
        { cols := [("Annotation").data, ("CIViC").data],
          rows := [[some (render [((("CIViC").data, v))]), some v]] } =
      .ok
        { cols := [("Annotation").data, ("CIViC").data],
          rows := [[some (render [((("CIViC").data, v))]), some v]] } := rfl
  have h_C :
      civicStep
        { cols := [("Annotation").data, ("CIViC").data],
          rows := [[some (render [((("CIViC").data, v))]), some v]] } =
      .ok
        { cols := [("Annotation").data, ("CIViC_0").data, ("CIViC_1").data,
                   ("CIViC_2").data, ("CIViC_3").data, ("CIViC_4").data, ("CIViC_5").data],
          rows := [[some (render [((("CIViC").data, v))]), some s0, some s1, some s2,
                    some s3, some s4, some s5]] } := by
    have hstep1 :
        civicStep
          { cols := [("Annotation").data, ("CIViC").data],
            rows := [[some (render [((("CIViC").data, v))]), some v]] } =
        (joinFrames
          { cols := [("Annotation").data, ("CIViC").data],
            rows := [[some (render [((("CIViC").data, v))]), some v]] }
          { cols := (List.range (maxWidth (splitCells [some v] ','))).map
              (fun j => ("CIViC_").data ++ natStr j),
            rows := (splitCells [some v] ',').map
              (fun p => expandRow p (maxWidth (splitCells [some v] ','))) }) >>=
          (fun g => Except.ok (dropCol g (("CIViC").data))) := rfl
    rw [hstep1, show splitCells [some v] ',' = [some (pySplit ',' v)] from rfl, hsplit,
      show maxWidth [some [s0, s1, s2, s3, s4, s5]] = 6 from rfl]
    rfl
  have h_D :
      dropCol
        { cols := [("Annotation").data, ("CIViC_0").data, ("CIViC_1").data,
                   ("CIViC_2").data, ("CIViC_3").data, ("CIViC_4").data, ("CIViC_5").data],
          rows := [[some (render [((("CIViC").data, v))]), some s0, some s1, some s2,
                    some s3, some s4, some s5]] } (("Annotation").data) =
      { cols := [("CIViC_0").data, ("CIViC_1").data, ("CIViC_2").data,
                 ("CIViC_3").data, ("CIViC_4").data, ("CIViC_5").data],
        rows := [[some s0, some s1, some s2, some s3, some s4, some s5]] } := rfl
  have h_F :
      fiBlock
        { cols := [("CIViC_0").data, ("CIViC_1").data, ("CIViC_2").data,
                   ("CIViC_3").data, ("CIViC_4").data, ("CIViC_5").data],
          rows := [[some s0, some s1, some s2, some s3, some s4, some s5]] } =
      .ok
        { cols := [("CIViC_0").data, ("CIViC_1").data, ("CIViC_2").data,
                   ("CIViC_3").data, ("CIViC_4").data, ("CIViC_5").data],
          rows := [[some s0, some s1, some s2, some s3, some s4, some s5]] } := rfl
  have h_SR :
      splitRenameAll
        { cols := [("CIViC_0").data, ("CIViC_1").data, ("CIViC_2").data,
                   ("CIViC_3").data, ("CIViC_4").data, ("CIViC_5").data],
          rows := [[some s0, some s1, some s2, some s3, some s4, some s5]] } =
      .ok
        { cols := [("CIViC_0").data, ("CIViC_1").data, ("CIViC_2").data,
                   ("CIViC_3").data, ("CIViC_4").data, ("CIViC_5").data],
          rows := [[some (condSplit s0), some (condSplit s1), some (condSplit s2),
                    some (condSplit s3), some (condSplit s4), some (condSplit s5)]] } := by
    have e1 :
        srOne
          { cols := [("CIViC_0").data, ("CIViC_1").data, ("CIViC_2").data, ("CIViC_3").data, ("CIViC_4").data, ("CIViC_5").data], rows := [[some s0, some s1, some s2, some s3, some s4, some s5]] }
          ((("CIViC_0").data, ("CIViC_diagnosticCount").data)) =
        .ok
          { cols := [("CIViC_0").data, ("CIViC_1").data, ("CIViC_2").data, ("CIViC_3").data, ("CIViC_4").data, ("CIViC_5").data], rows := [[some (condSplit s0), some s1, some s2, some s3, some s4, some s5]] } := rfl
    have e2 :
        srOne
          { cols := [("CIViC_0").data, ("CIViC_1").data, ("CIViC_2").data, ("CIViC_3").data, ("CIViC_4").data, ("CIViC_5").data], rows := [[some (condSplit s0), some s1, some s2, some s3, some s4, some s5]] }
          ((("CIViC_1").data, ("CIViC_predictiveCount").data)) =
        .ok
          { cols := [("CIViC_0").data, ("CIViC_1").data, ("CIViC_2").data, ("CIViC_3").data, ("CIViC_4").data, ("CIViC_5").data], rows := [[some (condSplit s0), some (condSplit s1), some s2, some s3, some s4, some s5]] } := rfl
    have e3 :
        srOne
          { cols := [("CIViC_0").data, ("CIViC_1").data, ("CIViC_2").data, ("CIViC_3").data, ("CIViC_4").data, ("CIViC_5").data], rows := [[some (condSplit s0), some (condSplit s1), some s2, some s3, some s4, some s5]] }
          ((("CIViC_2").data, ("CIViC_prognosticCount").data)) =
        .ok
          { cols := [("CIViC_0").data, ("CIViC_1").data, ("CIViC_2").data, ("CIViC_3").data, ("CIViC_4").data, ("CIViC_5").data], rows := [[some (condSplit s0), some (condSplit s1), some (condSplit s2), some s3, some s4, some s5]] } := rfl
    have e4 :
        srOne
          { cols := [("CIViC_0").data, ("CIViC_1").data, ("CIViC_2").data, ("CIViC_3").data, ("CIViC_4").data, ("CIViC_5").data], rows := [[some (condSplit s0), some (condSplit s1), some (condSplit s2), some s3, some s4, some s5]] }
          ((("CIViC_3").data, ("CIViC_predisposingCount").data)) =
        .ok
          { cols := [("CIViC_0").data, ("CIViC_1").data, ("CIViC_2").data, ("CIViC_3").data, ("CIViC_4").data, ("CIViC_5").data], rows := [[some (condSplit s0), some (condSplit s1), some (condSplit s2), some (condSplit s3), some s4, some s5]] } := rfl
    have e5 :
        srOne
          { cols := [("CIViC_0").data, ("CIViC_1").data, ("CIViC_2").data, ("CIViC_3").data, ("CIViC_4").data, ("CIViC_5").data], rows := [[some (condSplit s0), some (condSplit s1), some (condSplit s2), some (condSplit s3), some s4, some s5]] }
          ((("CIViC_4").data, ("CIViC_oncogenicCount").data)) =
        .ok
          { cols := [("CIViC_0").data, ("CIViC_1").data, ("CIViC_2").data, ("CIViC_3").data, ("CIViC_4").data, ("CIViC_5").data], rows := [[some (condSplit s0), some (condSplit s1), some (condSplit s2), some (condSplit s3), some (condSplit s4), some s5]] } := rfl
    have e6 :
        srOne
          { cols := [("CIViC_0").data, ("CIViC_1").data, ("CIViC_2").data, ("CIViC_3").data, ("CIViC_4").data, ("CIViC_5").data], rows := [[some (condSplit s0), some (condSplit s1), some (condSplit s2), some (condSplit s3), some (condSplit s4), some s5]] }
          ((("CIViC_5").data, ("CIViC_functionalCount").data)) =
        .ok
          { cols := [("CIViC_0").data, ("CIViC_1").data, ("CIViC_2").data, ("CIViC_3").data, ("CIViC_4").data, ("CIViC_5").data], rows := [[some (condSplit s0), some (condSplit s1), some (condSplit s2), some (condSplit s3), some (condSplit s4), some (condSplit s5)]] } := rfl
    have e7 :
        srOne
          { cols := [("CIViC_0").data, ("CIViC_1").data, ("CIViC_2").data, ("CIViC_3").data, ("CIViC_4").data, ("CIViC_5").data], rows := [[some (condSplit s0), some (condSplit s1), some (condSplit s2), some (condSplit s3), some (condSplit s4), some (condSplit s5)]] }
          ((("MutationAssessor_0").data, ("MutationAssessor_impact").data)) =
        .ok
          { cols := [("CIViC_0").data, ("CIViC_1").data, ("CIViC_2").data, ("CIViC_3").data, ("CIViC_4").data, ("CIViC_5").data], rows := [[some (condSplit s0), some (condSplit s1), some (condSplit s2), some (condSplit s3), some (condSplit s4), some (condSplit s5)]] } := rfl
    have e8 :
        srOne
          { cols := [("CIViC_0").data, ("CIViC_1").data, ("CIViC_2").data, ("CIViC_3").data, ("CIViC_4").data, ("CIViC_5").data], rows := [[some (condSplit s0), some (condSplit s1), some (condSplit s2), some (condSplit s3), some (condSplit s4), some (condSplit s5)]] }
          ((("MutationAssessor_1").data, ("MutationAssessor_score").data)) =
        .ok
          { cols := [("CIViC_0").data, ("CIViC_1").data, ("CIViC_2").data, ("CIViC_3").data, ("CIViC_4").data, ("CIViC_5").data], rows := [[some (condSplit s0), some (condSplit s1), some (condSplit s2), some (condSplit s3), some (condSplit s4), some (condSplit s5)]] } := rfl
    have e9 :
        srOne
          { cols := [("CIViC_0").data, ("CIViC_1").data, ("CIViC_2").data, ("CIViC_3").data, ("CIViC_4").data, ("CIViC_5").data], rows := [[some (condSplit s0), some (condSplit s1), some (condSplit s2), some (condSplit s3), some (condSplit s4), some (condSplit s5)]] }
          ((("SIFT_0").data, ("SIFT_impact").data)) =
        .ok
          { cols := [("CIViC_0").data, ("CIViC_1").data, ("CIViC_2").data, ("CIViC_3").data, ("CIViC_4").data, ("CIViC_5").data], rows := [[some (condSplit s0), some (condSplit s1), some (condSplit s2), some (condSplit s3), some (condSplit s4), some (condSplit s5)]] } := rfl
    have e10 :
        srOne
          { cols := [("CIViC_0").data, ("CIViC_1").data, ("CIViC_2").data, ("CIViC_3").data, ("CIViC_4").data, ("CIViC_5").data], rows := [[some (condSplit s0), some (condSplit s1), some (condSplit s2), some (condSplit s3), some (condSplit s4), some (condSplit s5)]] }
          ((("SIFT_1").data, ("SIFT_score").data)) =
        .ok
          { cols := [("CIViC_0").data, ("CIViC_1").data, ("CIViC_2").data, ("CIViC_3").data, ("CIViC_4").data, ("CIViC_5").data], rows := [[some (condSplit s0), some (condSplit s1), some (condSplit s2), some (condSplit s3), some (condSplit s4), some (condSplit s5)]] } := rfl
    have e11 :
        srOne
          { cols := [("CIViC_0").data, ("CIViC_1").data, ("CIViC_2").data, ("CIViC_3").data, ("CIViC_4").data, ("CIViC_5").data], rows := [[some (condSplit s0), some (condSplit s1), some (condSplit s2), some (condSplit s3), some (condSplit s4), some (condSplit s5)]] }
          ((("Polyphen-2_0").data, ("Polyphen-2_impact").data)) =
        .ok
          { cols := [("CIViC_0").data, ("CIViC_1").data, ("CIViC_2").data, ("CIViC_3").data, ("CIViC_4").data, ("CIViC_5").data], rows := [[some (condSplit s0), some (condSplit s1), some (condSplit s2), some (condSplit s3), some (condSplit s4), some (condSplit s5)]] } := rfl
    have e12 :
        srOne
          { cols := [("CIViC_0").data, ("CIViC_1").data, ("CIViC_2").data, ("CIViC_3").data, ("CIViC_4").data, ("CIViC_5").data], rows := [[some (condSplit s0), some (condSplit s1), some (condSplit s2), some (condSplit s3), some (condSplit s4), some (condSplit s5)]] }
          ((("Polyphen-2_1").data, ("Polyphen-2_score").data)) =
        .ok
          { cols := [("CIViC_0").data, ("CIViC_1").data, ("CIViC_2").data, ("CIViC_3").data, ("CIViC_4").data, ("CIViC_5").data], rows := [[some (condSplit s0), some (condSplit s1), some (condSplit s2), some (condSplit s3), some (condSplit s4), some (condSplit s5)]] } := rfl
    have e13 :
        srOne
          { cols := [("CIViC_0").data, ("CIViC_1").data, ("CIViC_2").data, ("CIViC_3").data, ("CIViC_4").data, ("CIViC_5").data], rows := [[some (condSplit s0), some (condSplit s1), some (condSplit s2), some (condSplit s3), some (condSplit s4), some (condSplit s5)]] }
          ((("AlphaMissense_0").data, ("AlphaMissense_pathogenicity").data)) =
        .ok
          { cols := [("CIViC_0").data, ("CIViC_1").data, ("CIViC_2").data, ("CIViC_3").data, ("CIViC_4").data, ("CIViC_5").data], rows := [[some (condSplit s0), some (condSplit s1), some (condSplit s2), some (condSplit s3), some (condSplit s4), some (condSplit s5)]] } := rfl
    have e14 :
        srOne
          { cols := [("CIViC_0").data, ("CIViC_1").data, ("CIViC_2").data, ("CIViC_3").data, ("CIViC_4").data, ("CIViC_5").data], rows := [[some (condSplit s0), some (condSplit s1), some (condSplit s2), some (condSplit s3), some (condSplit s4), some (condSplit s5)]] }
          ((("AlphaMissense_1").data, ("AlphaMissense_score").data)) =
        .ok
          { cols := [("CIViC_0").data, ("CIViC_1").data, ("CIViC_2").data, ("CIViC_3").data, ("CIViC_4").data, ("CIViC_5").data], rows := [[some (condSplit s0), some (condSplit s1), some (condSplit s2), some (condSplit s3), some (condSplit s4), some (condSplit s5)]] } := rfl
    simp only [splitRenameAll, split_rename_cols, List.foldlM_cons, List.foldlM_nil,
      e1, e2, e3, e4, e5, e6, e7, e8, e9, e10, e11, e12, e13, e14, exceptBind_ok]
    rfl
  have h_RS :
      stripAll (renameAll
        { cols := [("CIViC_0").data, ("CIViC_1").data, ("CIViC_2").data,
                   ("CIViC_3").data, ("CIViC_4").data, ("CIViC_5").data],
          rows := [[some (condSplit s0), some (condSplit s1), some (condSplit s2),
                    some (condSplit s3), some (condSplit s4), some (condSplit s5)]] }) =
      { cols := [("CIViC_diagnosticCount").data, ("CIViC_predictiveCount").data,
                 ("CIViC_prognosticCount").data, ("CIViC_predisposingCount").data,
                 ("CIViC_oncogenicCount").data, ("CIViC_functionalCount").data],
        rows := [[some (pyStrip (condSplit s0)), some (pyStrip (condSplit s1)),
                  some (pyStrip (condSplit s2)), some (pyStrip (condSplit s3)),
                  some (pyStrip (condSplit s4)), some (pyStrip (condSplit s5))]] } := rfl
  simp only [processTsv, h_rows, Bool.false_eq_true, if_false, annotBlock, h_has, if_true,
    h_get, exceptBind_ok, h_A, h_J, h_O, h_C, h_D, h_F, h_SR, h_RS]

/-- C6 witness: the amended round-trip at the concrete CIViC sub-values
of a real record. -/
theorem C6_roundtrip_label_strip_witness :
    processTsv (annotBatch [[(("CIViC").data,
        joinComma [("diagnostic:1").data, ("predictive:2").data, ("prognostic:3").data,
                   ("predisposing:4").data, ("oncogenic:5").data, ("functional:6").data])]]) =
      .ok (.wrote
        { cols := [("CIViC_diagnosticCount").data, ("CIViC_predictiveCount").data,
                   ("CIViC_prognosticCount").data, ("CIViC_predisposingCount").data,
                   ("CIViC_oncogenicCount").data, ("CIViC_functionalCount").data],
          rows := [[some (pyStrip (condSplit (("diagnostic:1").data))),
                    some (pyStrip (condSplit (("predictive:2").data))),
                    some (pyStrip (condSplit (("prognostic:3").data))),
                    some (pyStrip (condSplit (("predisposing:4").data))),
                    some (pyStrip (condSplit (("oncogenic:5").data))),
                    some (pyStrip (condSplit (("functional:6").data)))]] }) :=
  C6_roundtrip_label_strip (("diagnostic:1").data) (("predictive:2").data)
    (("prognostic:3").data) (("predisposing:4").data) (("oncogenic:5").data)
    (("functional:6").data) (by decide) (by decide)

/-- C6 counterexample: the claim as stated says each output cell equals
the trimmed sub-value of the input.  For the record
`CIViC:diagnostic:1,predictive:2` the first output cell is `1`, while the
trimmed first sub-value is `diagnostic:1`: the conditional label strip of
line 145 removes the `diagnostic:` title, so the round-trip is not
value-preserving modulo trim alone. -/
theorem C6_label_not_value_preserving :
    processTsv { cols := [("Annotation").data],
                 rows := [[some (("CIViC:diagnostic:1,predictive:2").data)]] } =
      .ok (.wrote { cols := [("CIViC_diagnosticCount").data, ("CIViC_predictiveCount").data],
                    rows := [[some (("1").data), some (("2").data)]] }) ∧
    some (pyStrip (("diagnostic:1").data)) ≠ some (("1").data) := by
  constructor
  · decide
  · decide

/-- C10: a file whose HTML yields fewer than 5 tables makes
`select_tables` raise ValueError before any merge or column insertion, so
no partial result exists for that file; the per-file try/except of `main`
(lines 131-139) records the file in the error list and the results of all
other files are unaffected. -/
theorem C10_too_few_tables_skipped (name : Str) (tables : List Frame)
    (pre post : List (Str × List Frame)) (h : tables.length < 5) :
    select_tables tables = .error (.tooFew tables.length) ∧
    processFiles (pre ++ (name, tables) :: post) =
      ((processFiles pre).1 ++ (processFiles post).1,
       (processFiles pre).2.1 ++ (processFiles post).2.1,
       (processFiles pre).2.2 ++ name :: (processFiles post).2.2) := by
  refine ⟨select_tables_too_few tables h, ?_⟩
  induction pre with
  | nil => simp [processFiles, select_tables_too_few tables h]
  | cons p rest ih =>
    obtain ⟨pn, pt⟩ := p
    cases hsel : select_tables pt <;>
      simp [processFiles, hsel, ih]

/-- C3: the Field Extractor's tag-to-value mapping over a well-formed
annotation string (a render of tag/value segments whose values embed no
tag anchor, with distinct tags) does not depend on the order in which the
segments appear: any permutation of the segments yields the same lookup
result for every tag.  No step of the decomposition assumes a fixed tag
order — the regex anchors on the tags themselves. -/
theorem C3_extractor_order_independent (segs1 segs2 : List (Str × Str))
    (hperm : segs1.Perm segs2) (hgood : goodSegs segs1 = true)
    (hnodup : (segs1.map Prod.fst).Nodup) (t : Str) :
    (extractPairs (render segs1)).lookup t = (extractPairs (render segs2)).lookup t := by
  have hgood2 : goodSegs segs2 = true := by
    rw [goodSegs, List.all_eq_true] at hgood ⊢
    exact fun p hp => hgood p (hperm.mem_iff.mpr hp)
  rw [extractPairs_render segs1 hgood, extractPairs_render segs2 hgood2]
  have hkeys : ((segs1.map (fun p => (p.1, rstripSemi p.2))).map Prod.fst) =
      segs1.map Prod.fst := by
    rw [List.map_map]; rfl
  exact lookup_perm (hperm.map _) (by rw [hkeys]; exact hnodup) t

/-- C3 witness: the two-segment render `OncoKB:a;CIViC:b` and its
reversal `CIViC:bOncoKB:a` map `OncoKB` to the same value. -/
theorem C3_extractor_order_independent_witness :
    (extractPairs (render [(("OncoKB").data, ("a;").data), (("CIViC").data, ("b").data)])).lookup (("OncoKB").data) =
    (extractPairs (render [(("CIViC").data, ("b").data), (("OncoKB").data, ("a;").data)])).lookup (("OncoKB").data) :=
  C3_extractor_order_independent
    [(("OncoKB").data, ("a;").data), (("CIViC").data, ("b").data)]
    [(("CIViC").data, ("b").data), (("OncoKB").data, ("a;").data)]
    (List.Perm.swap _ _ _) (by decide) (by decide) (("OncoKB").data)

/-- C5: an embedded delimiter-like character inside a tag's value (for
example a colon that starts no recognized tag anchor) does not terminate
the value: the extractor returns the full value of each segment, running
until the next recognized tag anchor or the end of the string, with only
trailing semicolons stripped. -/
theorem C5_embedded_colon_not_boundary (t v t2 v2 : Str)
    (ht : t ∈ tags) (hv : valueOk v = true) (_hcolon : ':' ∈ v)
    (ht2 : t2 ∈ tags) (hv2 : valueOk v2 = true) :
    extractPairs (render [(t, v), (t2, v2)]) = [(t, rstripSemi v), (t2, rstripSemi v2)] := by
  have hgood : goodSegs [(t, v), (t2, v2)] = true := by
    simp only [goodSegs, List.all_cons, List.all_nil, goodSeg, Bool.and_eq_true,
      containsTag_of_mem ht, containsTag_of_mem ht2, hv, hv2, Bool.and_true, and_self]
  rw [extractPairs_render _ hgood]
  rfl

/-- C5 witness: the reVUE value `c.617-3T:G;` contains a colon that is no
tag boundary; the extractor keeps the whole value (minus the trailing
semicolon) and still finds the following OncoKB segment. -/
theorem C5_embedded_colon_not_boundary_witness :
    extractPairs (render [(("reVUE").data, ("c.617-3T:G;").data), (("OncoKB").data, ("Oncogenic").data)]) =
      [(("reVUE").data, rstripSemi (("c.617-3T:G;").data)),
       (("OncoKB").data, rstripSemi (("Oncogenic").data))] :=
  C5_embedded_colon_not_boundary (("reVUE").data) (("c.617-3T:G;").data)
    (("OncoKB").data) (("Oncogenic").data)
    (by decide) (by decide) (by decide) (by decide) (by decide)

/-- C10 witness: a file with zero extracted tables is raised on and
recorded while the sibling file with five well-formed tables is still
processed. -/
theorem C10_too_few_tables_skipped_witness :
    select_tables ([] : List Frame) = .error (.tooFew (List.length ([] : List Frame))) ∧
    processFiles ([(("g").data, c10GoodTables)] ++ (("f").data, ([] : List Frame)) :: []) =
      ((processFiles [(("g").data, c10GoodTables)]).1 ++ (processFiles ([] : List (Str × List Frame))).1,
       (processFiles [(("g").data, c10GoodTables)]).2.1 ++ (processFiles ([] : List (Str × List Frame))).2.1,
       (processFiles [(("g").data, c10GoodTables)]).2.2 ++ (("f").data) :: (processFiles ([] : List (Str × List Frame))).2.2) :=
  C10_too_few_tables_skipped (("f").data) [] [(("g").data, c10GoodTables)] [] (by decide)

end SCR





